import Mathlib

/-!
Verification development for the figma_img design-tree-to-markup compiler
(`fetch_figma_layout.py` and `tools/unify_styles.py`).

The Python source is shallowly embedded: dictionaries become structures whose
field reads mirror the source's `dict.get(key, default)` patterns (a missing
key is represented by the default value, or by `Option` where the source
distinguishes a missing key from a present one), floats become rationals
(`ℚ`), Python `int()` truncation and banker's `round()` are modelled
explicitly, and the module-level mutable globals that act as configuration
knobs are passed as explicit parameters.  The exclusion predicate
`should_exclude_node` is configuration-dependent (env denylists, include-like
scoring); every function that consults it takes it as an explicit parameter
`excl`, so all theorems below hold for every exclusion behaviour.
-/

namespace Figma

/-- Absolute bounding box; the source reads fields via `b.get("x", 0)` etc.,
so a missing field is represented by the default `0`. -/
structure BBox where
  x : ℚ := 0
  y : ℚ := 0
  width : ℚ := 0
  height : ℚ := 0
deriving Repr, DecidableEq

/-- An `r/g/b/a` color dict; `color.get("r", 0)` etc., `color.get("a", 1)`. -/
structure FColor where
  r : ℚ := 0
  g : ℚ := 0
  b : ℚ := 0
  a : ℚ := 1
deriving Repr, DecidableEq

/-- A gradient stop: `stop.get("position", 0)`, `stop.get("color", {})`. -/
structure GradientStop where
  position : ℚ := 0
  color : FColor := {}
deriving Repr, DecidableEq

/-- A gradient handle position: `p.get("x", ...)`, `p.get("y", ...)`. -/
structure HandlePos where
  x : ℚ := 0
  y : ℚ := 0
deriving Repr, DecidableEq

/-- A paint (fill or stroke) dict.  `fill.get("visible")` distinguishes an
explicit `False` from a missing key, hence `Option Bool`;
`fill.get("opacity", 1)` defaults to 1. -/
structure Fill where
  type : String := ""
  visible : Option Bool := none
  opacity : ℚ := 1
  color : FColor := {}
  gradientStops : List GradientStop := []
  gradientHandlePositions : List HandlePos := []
deriving Repr, DecidableEq

/-- An effect dict (only its presence matters for the claims below). -/
structure Effect where
  type : String := ""
  radius : ℚ := 0
deriving Repr, DecidableEq

/-- A layout grid dict: `grid.get("pattern")`, `grid.get("visible", True)`,
`int(grid.get("count", 0) or 0)`, `int(grid.get("gutterSize", 0) or 0)`. -/
structure LayoutGrid where
  pattern : String := ""
  visible : Bool := true
  count : ℤ := 0
  gutterSize : ℤ := 0
  alignment : String := "STRETCH"
deriving Repr, DecidableEq

/-- TEXT node `style` dict: `style.get("fontSize", 16)`,
`style.get("fontWeight", 400)`. -/
structure TextStyle where
  fontSize : ℚ := 16
  fontWeight : ℚ := 400
deriving Repr, DecidableEq

/-- Scalar fields of a design node, with the defaults the source supplies at
each `get`.  `visible` is `Option Bool` because `should_exclude_node` tests
`node.get("visible") is False`.  `absoluteBoundingBox` is `Option BBox`
because the source writes `node.get("absoluteBoundingBox", {}) or {}`. -/
structure NodeData where
  id : String := ""
  name : String := ""
  type : String := ""
  visible : Option Bool := none
  absoluteBoundingBox : Option BBox := none
  fills : List Fill := []
  strokes : List Fill := []
  effects : List Effect := []
  opacity : ℚ := 1
  layoutMode : String := "NONE"
  layoutWrap : Option String := none
  itemSpacing : ℚ := 0
  layoutGrids : List LayoutGrid := []
  paddingLeft : ℚ := 0
  paddingRight : ℚ := 0
  paddingTop : ℚ := 0
  paddingBottom : ℚ := 0
  cornerRadius : ℚ := 0
  rectangleCornerRadii : List ℚ := []
  clipsContent : Bool := false
  style : TextStyle := {}
  characters : String := ""
deriving Repr, DecidableEq

/-- A design node: scalar data plus the ordered `children` list. -/
inductive Node : Type where
  | mk (data : NodeData) (children : List Node)
deriving Repr

def Node.data : Node → NodeData
  | .mk d _ => d

def Node.children : Node → List Node
  | .mk _ cs => cs

/-- `node.get("absoluteBoundingBox", {}) or {}` — missing box reads as all-0. -/
def Node.bbox (n : Node) : BBox :=
  n.data.absoluteBoundingBox.getD {}

@[simp] theorem Node.data_mk (d : NodeData) (cs : List Node) :
    (Node.mk d cs).data = d := rfl

@[simp] theorem Node.children_mk (d : NodeData) (cs : List Node) :
    (Node.mk d cs).children = cs := rfl

mutual

/-- `find_node_by_id(node, target_id)`: pre-order search; the node itself is
checked first, then the children in order, returning the first match. -/
def find_node_by_id : Node → String → Option Node
  | .mk d cs, targetId =>
    if d.id = targetId then some (.mk d cs)
    else find_node_by_id_list cs targetId

/-- The `for child in node.get("children", [])` loop of `find_node_by_id`. -/
def find_node_by_id_list : List Node → String → Option Node
  | [], _ => none
  | c :: cs, targetId =>
    match find_node_by_id c targetId with
    | some found => some found
    | none => find_node_by_id_list cs targetId
end

/-- The module-level dispatch after `find_node_by_id`: a missing target frame
raises `ValueError` (fatal, nothing generated); otherwise generation proceeds
with the found node as root. -/
def locate_target_frame (document : Node) (frameNodeId : String) :
    Except String Node :=
  match find_node_by_id document frameNodeId with
  | none => .error ("フレームID " ++ frameNodeId ++ " が見つかりませんでした")
  | some n => .ok n

/-! ## Section detection (`detect_sections_by_frames`, `detect_sections_by_position`) -/

/-- Char-list prefix test (code-point exact). -/
def listIsPfx : List Char → List Char → Bool
  | [], _ => true
  | _ :: _, [] => false
  | x :: xs, y :: ys => x == y && listIsPfx xs ys

/-- Char-list infix test. -/
def listIsInf (needle : List Char) : List Char → Bool
  | [] => needle.isEmpty
  | x :: rest => listIsPfx needle (x :: rest) || listIsInf needle rest

/-- Python substring test `sub in s` (code-point exact). -/
def strIn (sub s : String) : Bool :=
  listIsInf sub.toList s.toList

/-- Python `s.lower()`.  (Char-wise ASCII lowering; the layer names and CSS
property strings involved are ASCII or Japanese, on which Python agrees.) -/
def pyLower (s : String) : String :=
  String.mk (s.toList.map Char.toLower)

/-- Python `s.strip()`. -/
def pyStrip (s : String) : String :=
  String.mk
    (((s.toList.dropWhile Char.isWhitespace).reverse.dropWhile
      Char.isWhitespace).reverse)

/-- Python `s.startswith(pat)`. -/
def strStartsW (s pat : String) : Bool :=
  listIsPfx pat.toList s.toList

/-- Python `s.endswith(pat)`. -/
def strEndsW (s pat : String) : Bool :=
  listIsPfx pat.toList.reverse s.toList.reverse

/-- `s[n:]` for a character count `n`. -/
def strDrop (s : String) (n : ℕ) : String :=
  String.mk (s.toList.drop n)

/-- `s[:-n]` for a character count `n`. -/
def strDropRight (s : String) (n : ℕ) : String :=
  String.mk (s.toList.take (s.toList.length - n))

/-- `':' in s`. -/
def hasColon (s : String) : Bool :=
  s.toList.contains ':'

/-- All-digit run to a number. -/
def digitsToNat : List Char → Option ℕ
  | [] => none
  | l =>
    if l.all Char.isDigit then
      some (l.foldl (fun n c => 10 * n + (c.toNat - 48)) 0)
    else none

/-- Python `int(s)` on integer literals (the only numeric values the
pipeline writes into the px declarations handled below); anything else
raises, modelled as `none`. -/
def parseInt (s : String) : Option ℤ :=
  match s.toList with
  | '-' :: rest => (digitsToNat rest).map fun n => -(n : ℤ)
  | l => (digitsToNat l).map fun n => (n : ℤ)

/-- `is_section_name(name)`: keyword match on the lowercased layer name. -/
def is_section_name (name : String) : Bool :=
  let section_keywords : List String :=
    ["section", "hero", "feature", "pricing", "contact",
     "about", "service", "gallery", "content", "main",
     "セクション", "ヒーロー", "機能", "料金", "連絡"]
  let name_lower := pyLower name
  section_keywords.any (fun kw => strIn kw name_lower)

/-- A detected section.  Frame-detected sections carry `id`/`name`/`children`;
position-detected sections carry `elements`/`y_start`/`y_end` and have no
`name` key (`name = none`). -/
structure Section where
  id : Option String := none
  name : Option String := none
  type : String := ""
  absoluteBoundingBox : Option BBox := none
  children : List Node := []
  elements : List Node := []
  y_start : ℚ := 0
  y_end : ℚ := 0
deriving Repr

mutual

/-- `detect_sections_by_frames(node)`: pre-order walk (parametrised by the
configuration-dependent `should_exclude_node`, here `excl`); an excluded node
cuts off its whole subtree; a FRAME whose name passes `is_section_name`
contributes one section, and traversal continues into the children. -/
def detect_sections_by_frames (excl : Node → Bool) : Node → List Section
  | .mk d cs =>
    if excl (.mk d cs) then []
    else
      (if d.type = "FRAME" ∧ is_section_name d.name then
        [{ id := some d.id
           name := some d.name
           type := "frame_detected"
           absoluteBoundingBox := d.absoluteBoundingBox
           children := cs }]
      else []) ++ detect_sections_by_frames_list excl cs

/-- The `for child in node.get("children", [])` loop of
`detect_sections_by_frames`. -/
def detect_sections_by_frames_list (excl : Node → Bool) :
    List Node → List Section
  | [] => []
  | c :: cs =>
    detect_sections_by_frames excl c ++ detect_sections_by_frames_list excl cs

end

mutual

/-- `get_all_child_elements(node)`: recursively flattens the descendants,
skipping excluded nodes together with their subtrees. -/
def get_all_child_elements (excl : Node → Bool) : Node → List Node
  | .mk _ cs => get_all_child_elements_list excl cs

/-- The `for child in node.get("children", [])` loop of
`get_all_child_elements`. -/
def get_all_child_elements_list (excl : Node → Bool) :
    List Node → List Node
  | [] => []
  | c :: cs =>
    (if excl c then [] else c :: get_all_child_elements excl c) ++
      get_all_child_elements_list excl cs

end

/-- `el.get("absoluteBoundingBox", {}).get("y", 0)`. -/
def nodeY (n : Node) : ℚ := n.bbox.y

/-- `el.get("absoluteBoundingBox", {}).get("height", 0)`. -/
def nodeHeight (n : Node) : ℚ := n.bbox.height

/-- Insert `c` after every element whose key is `≤ key c` (so that the
left-to-right fold below is a stable sort, like Python's `sorted`). -/
def insertByKey {α : Type} (key : α → ℚ) (c : α) : List α → List α
  | [] => [c]
  | d :: ds => if key d ≤ key c then d :: insertByKey key c ds else c :: d :: ds

/-- Stable ascending sort by `key`, modelling Python's `sorted(..., key=...)`. -/
def sortByKey {α : Type} (key : α → ℚ) (l : List α) : List α :=
  l.foldl (fun acc c => insertByKey key c acc) []

/-- State of the `for element in sorted_elements` loop of
`detect_sections_by_position`. -/
structure PosLoopState where
  sections : List Section := []
  current : List Node := []
  last_y : ℚ := 0

/-- Build the section dict appended by `detect_sections_by_position`:
`type="position_detected"`, the collected elements, `y_start` from the first
element's box, `y_end = last_y`; no `name` key. -/
def mkPositionSection (elems : List Node) (last_y : ℚ) : Section :=
  { type := "position_detected"
    elements := elems
    y_start := (elems.headD (.mk {} [])).bbox.y
    y_end := last_y }

/-- One iteration of the `detect_sections_by_position` loop. -/
def posStep (threshold : ℚ) (st : PosLoopState) (element : Node) :
    PosLoopState :=
  let y_pos := nodeY element
  let st :=
    if nodeY element - st.last_y > threshold ∧ st.current.isEmpty = false then
      { sections := st.sections ++ [mkPositionSection st.current st.last_y]
        current := []
        last_y := st.last_y }
    else st
  { sections := st.sections
    current := st.current ++ [element]
    last_y := y_pos + nodeHeight element }

/-- After the loop: flush the last (non-empty) section. -/
def posFinish (st : PosLoopState) : List Section :=
  if st.current.isEmpty = false then
    st.sections ++ [mkPositionSection st.current st.last_y]
  else st.sections

/-- `detect_sections_by_position(node, threshold=100)`: flatten the
non-excluded descendants, sort by absolute Y, and close a section whenever
the next element's Y exceeds the previous element's bottom edge (`last_y`)
by more than `threshold`. -/
def detect_sections_by_position (excl : Node → Bool) (node : Node)
    (threshold : ℚ := 100) : List Section :=
  let all_children := (get_all_child_elements excl node).filter (fun el => !excl el)
  let sorted_elements := sortByKey nodeY all_children
  posFinish (sorted_elements.foldl (posStep threshold) {})

/-- The module-level dispatch: frame-name strategy first, position fallback
only when it returned an empty list. -/
def detect_sections (excl : Node → Bool) (node : Node) : List Section :=
  let sections := detect_sections_by_frames excl node
  if sections.isEmpty then detect_sections_by_position excl node else sections

/-! ## Heading-level detection (`detect_heading_level`)

The source reads three module globals: `HEADING_STRATEGY` (with env default
`"single_h1"`), `ALLOW_H1_IN_FIRST_SECTION` (default `true`) and
`SECTION_HEADING_BASE` (default `2`) — modelled as `HeadingCfg` — and the two
mutable globals `HAS_H1_EMITTED` / `CURRENT_SECTION_INDEX` (initial values
`False` / `-1`) — modelled as `HeadingState`, threaded in and out. -/

structure HeadingCfg where
  strategy : String := "single_h1"
  allow_h1_in_first_section : Bool := true
  section_heading_base : ℤ := 2
deriving Repr, DecidableEq

structure HeadingState where
  has_h1_emitted : Bool := false
  current_section_index : ℤ := -1
deriving Repr, DecidableEq

/-- `detect_heading_level(element)`, returning the chosen tag together with
the updated `HAS_H1_EMITTED` state.  Blocks 1–3 of the source (layer-name
match, weight+size thresholds, size-only thresholds) `return` directly,
before the heading-policy section; the `raw` recomputation and the policy
`if` chains below them run only when all three blocks fell through. -/
def detect_heading_level (cfg : HeadingCfg) (st : HeadingState)
    (element : Node) : String × HeadingState :=
  let element_name := pyLower element.data.name
  let font_size := element.data.style.fontSize
  let font_weight := element.data.style.fontWeight
  -- 1. layer-name match (highest priority, direct return)
  if strIn "h1" element_name ∨ strIn "見出し1" element_name ∨
      strIn "title" element_name then ("h1", st)
  else if strIn "h2" element_name ∨ strIn "見出し2" element_name ∨
      strIn "subtitle" element_name then ("h2", st)
  else if strIn "h3" element_name ∨ strIn "見出し3" element_name then ("h3", st)
  else if strIn "h4" element_name ∨ strIn "見出し4" element_name then ("h4", st)
  -- 2. font size + weight (direct return; falls through when size < 16)
  else if font_weight ≥ 600 ∧ font_size ≥ 32 then ("h1", st)
  else if font_weight ≥ 600 ∧ font_size ≥ 24 then ("h2", st)
  else if font_weight ≥ 600 ∧ font_size ≥ 18 then ("h3", st)
  else if font_weight ≥ 600 ∧ font_size ≥ 16 then ("h4", st)
  -- 3. font size only (direct return)
  else if font_size ≥ 28 then ("h1", st)
  else if font_size ≥ 20 then ("h2", st)
  else
    -- raw recomputation (reachable only with raw = "p", see blocks above)
    let raw :=
      if strIn "h1" element_name ∨ strIn "見出し1" element_name ∨
          strIn "title" element_name then "h1"
      else if strIn "h2" element_name ∨ strIn "見出し2" element_name ∨
          strIn "subtitle" element_name then "h2"
      else if strIn "h3" element_name ∨ strIn "見出し3" element_name then "h3"
      else if strIn "h4" element_name ∨ strIn "見出し4" element_name then "h4"
      else if font_weight ≥ 600 then
        if font_size ≥ 32 then "h1"
        else if font_size ≥ 24 then "h2"
        else if font_size ≥ 18 then "h3"
        else if font_size ≥ 16 then "h4"
        else "p"
      else
        if font_size ≥ 28 then "h1"
        else if font_size ≥ 20 then "h2"
        else "p"
    -- policy application
    if cfg.strategy = "figma" then
      if raw = "h1" then (raw, { st with has_h1_emitted := true }) else (raw, st)
    else if cfg.strategy = "single_h1" then
      if raw = "h1" then
        if st.has_h1_emitted ∨
            (st.current_section_index ≠ -1 ∧ st.current_section_index ≠ 0) then
          ("h2", st)
        else ("h1", { st with has_h1_emitted := true })
      else (raw, st)
    else if cfg.strategy = "per_section" then
      if raw = "h1" then
        if (st.current_section_index = -1 ∨ st.current_section_index = 0) ∧
            cfg.allow_h1_in_first_section ∧ st.has_h1_emitted = false then
          ("h1", { st with has_h1_emitted := true })
        else ("h2", st)
      else if raw = "p" then ("p", st)
      else if cfg.section_heading_base ≤ 2 then
        (if raw = "h2" ∨ raw = "h3" ∨ raw = "h4" ∨ raw = "p" then raw else "h2",
         st)
      else if cfg.section_heading_base = 3 then
        (if raw = "h2" ∨ raw = "h3" then "h3"
         else if raw = "h4" then "h4" else "p", st)
      else (raw, st)
    else (raw, st)

/-! ## Layout analysis (`analyze_layout_structure` and helpers) -/

/-- Python `int(x)`: truncation toward zero. -/
def pyInt (q : ℚ) : ℤ :=
  if q ≥ 0 then ⌊q⌋ else -⌊-q⌋

/-- Python `round(x)` (no digits): round half to even. -/
def pyRound (q : ℚ) : ℤ :=
  let f := ⌊q⌋
  let r := q - (f : ℚ)
  if r < 1/2 then f
  else if 1/2 < r then f + 1
  else if f % 2 = 0 then f else f + 1

/-- Python `f"{q:.2f}"` on an exact rational: two decimals, half-even. -/
def fmt2 (q : ℚ) : String :=
  let n := pyRound (q * 100)
  let sign := if n < 0 then "-" else ""
  let m := n.natAbs
  sign ++ toString (m / 100) ++ "." ++
    (if m % 100 < 10 then "0" else "") ++ toString (m % 100)

/-- One entry of `child_positions`: the per-child dict built inside
`analyze_layout_structure`. -/
structure ChildPos where
  id : String := ""
  name : String := ""
  type : String := ""
  x : ℚ := 0
  y : ℚ := 0
  width : ℚ := 0
  height : ℚ := 0
deriving Repr, DecidableEq

/-- The `child_positions` collection loop: skip excluded children, read the
box fields with default 0. -/
def child_positions (excl : Node → Bool) (children : List Node) :
    List ChildPos :=
  children.filterMap fun c =>
    if excl c then none
    else some
      { id := c.data.id, name := c.data.name, type := c.data.type
        x := c.bbox.x, y := c.bbox.y
        width := c.bbox.width, height := c.bbox.height }

/-- The layout-grid scan: the first grid with `pattern == "COLUMNS"`,
`visible` (default true) and `count > 0` wins (`break`); other grids are
skipped. -/
def firstColumnsGrid (grids : List LayoutGrid) : Option LayoutGrid :=
  grids.find? fun g =>
    g.pattern = "COLUMNS" ∧ g.visible = true ∧ 0 < g.count

/-- The `analyze_layout_structure` result dict. -/
structure LayoutInfo where
  type : String := ""
  columns : ℤ := 1
  layout_mode : String := "NONE"
  reason : String := ""
  confidence : ℚ := 0
  gap : Option ℤ := none
  ratios : Option (List String) := none
deriving Repr, DecidableEq

/-- The column-count-to-type mapping repeated in each branch of
`analyze_layout_structure`. -/
def columnsType (cols : ℤ) : String :=
  if cols = 2 then "two-column"
  else if cols = 3 then "three-column"
  else if cols ≥ 4 then "multi-column"
  else "single"

/-- `y_overlap(a, b)`: intersection height over the smaller height
(clamped below by 1). -/
def y_overlap (a b : ChildPos) : ℚ :=
  let top := max a.y b.y
  let bottom := min (a.y + a.height) (b.y + b.height)
  let inter := max 0 (bottom - top)
  let min_h := max 1 (min a.height b.height)
  inter / min_h

/-- The greedy row grouping: the earliest (by the stable Y-sort) unused
element seeds a row, collecting every later unused element whose Y-overlap
with the seed is `≥ 0.6`; only rows with more than one member are kept, each
sorted by X. -/
def groupRows (threshold : ℚ) : List ChildPos → List (List ChildPos)
  | [] => []
  | c :: rest =>
    let row := c :: rest.filter (fun d => threshold ≤ y_overlap c d)
    let remaining := rest.filter (fun d => ¬ threshold ≤ y_overlap c d)
    (if 1 < row.length then [sortByKey (fun p => p.x) row] else []) ++
      groupRows threshold remaining
termination_by l => l.length
decreasing_by
  simp only [List.length_cons]
  exact Nat.lt_succ_of_le (List.length_filter_le _ _)

/-- `classify_ratio_precise(ratios)`: named buckets for 2 (and 3) columns,
checked in source order, with the literal two-decimal ratio string as
fallback.  Decimal literals (`0.05`, `0.33`, …) are modelled as exact
rationals. -/
def classify_ratio_precise (rs : List ℚ) : String :=
  match rs with
  | [left_ratio, right_ratio] =>
    if |left_ratio - 1/2| < 5/100 ∧ |right_ratio - 1/2| < 5/100 then "1:1"
    else if (|left_ratio - 33/100| < 5/100 ∧ |right_ratio - 67/100| < 5/100) ∨
        (|left_ratio - 67/100| < 5/100 ∧ |right_ratio - 33/100| < 5/100) then
      "1:2"
    else if (|left_ratio - 40/100| < 5/100 ∧ |right_ratio - 60/100| < 5/100) ∨
        (|left_ratio - 60/100| < 5/100 ∧ |right_ratio - 40/100| < 5/100) then
      "2:3"
    else if (|left_ratio - 25/100| < 5/100 ∧ |right_ratio - 75/100| < 5/100) ∨
        (|left_ratio - 75/100| < 5/100 ∧ |right_ratio - 25/100| < 5/100) then
      "1:3"
    else if (|left_ratio - 43/100| < 3/100 ∧ |right_ratio - 57/100| < 3/100) ∨
        (|left_ratio - 57/100| < 3/100 ∧ |right_ratio - 43/100| < 3/100) then
      "3:4"
    else fmt2 left_ratio ++ ":" ++ fmt2 right_ratio
  | [r1, r2, r3] =>
    if |r1 - 33/100| < 5/100 ∧ |r2 - 33/100| < 5/100 ∧ |r3 - 33/100| < 5/100
    then "1:1:1"
    else String.intercalate ":" ([r1, r2, r3].map fmt2)
  | _ => String.intercalate ":" (rs.map fmt2)

/-- `analyze_column_ratios(horizontal_groups)`: per row of ≥ 2 members with
positive total width, classify the width fractions (in X order). -/
def analyze_column_ratios (horizontal_groups : List (List ChildPos)) :
    List String :=
  horizontal_groups.filterMap fun group =>
    if 2 ≤ group.length then
      let sorted_group := sortByKey (fun p => p.x) group
      let total_width := (sorted_group.map (fun i => i.width)).sum
      if 0 < total_width then
        some (classify_ratio_precise
          (sorted_group.map (fun i => i.width / total_width)))
      else none
    else none

/-- The auto-layout (strategy 2) result for `layoutMode == "HORIZONTAL"`:
wrap estimation when `layoutWrap == "WRAP"` and the container width is
positive, else one column per visible child. -/
def autoLayoutInfo (element : Node) (cps : List ChildPos) : LayoutInfo :=
  let wrap := element.data.layoutWrap
  let container_w := element.bbox.width
  if wrap = some "WRAP" ∧ 0 < container_w then
    let avg_w : ℚ :=
      max 1 ((cps.map (fun c => c.width)).sum / max 1 (cps.length : ℚ))
    let gap : ℤ := pyInt element.data.itemSpacing
    let est : ℤ := max 1 ⌊(container_w + (gap : ℚ)) / (avg_w + (gap : ℚ))⌋
    let cols := min est (cps.length : ℤ)
    { columns := cols, layout_mode := element.data.layoutMode
      reason := "auto_layout_wrap", confidence := 7/10
      type := columnsType cols }
  else
    let cols : ℤ := (cps.length : ℤ)
    { columns := cols, layout_mode := element.data.layoutMode
      reason := "auto_layout_horizontal", confidence := 8/10
      type := columnsType cols }

/-- The position-based (strategy 3) result: greedy row grouping with
Y-overlap `≥ 0.6`; ratios are attached only in the two-column case. -/
def positionInfo (layout_mode : String) (cps : List ChildPos) : LayoutInfo :=
  let rows := groupRows (6/10) (sortByKey (fun p => p.y) cps)
  if rows.isEmpty then
    { type := "single", columns := 1, reason := "position-none"
      confidence := 0, layout_mode := layout_mode }
  else
    let max_columns : ℤ := ((rows.map (fun r => r.length)).foldl max 0 : ℕ)
    { columns := max_columns, reason := "position", confidence := 6/10
      layout_mode := layout_mode
      type := columnsType max_columns
      ratios := if max_columns = 2 then some (analyze_column_ratios rows)
        else none }

/-- `analyze_layout_structure(element)`: empty-children early return; then
grid (strategy 1) before anything else; then the no-visible-children early
return; the auto-layout result (strategy 2, HORIZONTAL only) wins over the
position result exactly when its column count exceeds 1. -/
def analyze_layout_structure (excl : Node → Bool) (element : Node) :
    LayoutInfo :=
  if element.children.isEmpty then
    { type := "single", columns := 1
      layout_mode := element.data.layoutMode
      reason := "no-children", confidence := 0 }
  else
    let layout_mode := element.data.layoutMode
    match firstColumnsGrid element.data.layoutGrids with
    | some g =>
      { columns := g.count, layout_mode := layout_mode, reason := "grid"
        confidence := 95/100, type := columnsType g.count
        gap := some g.gutterSize }
    | none =>
      let cps := child_positions excl element.children
      if cps.isEmpty then
        { type := "single", columns := 1, layout_mode := layout_mode
          reason := "no-visible-children", confidence := 0 }
      else
        let pos_info := positionInfo layout_mode cps
        if layout_mode = "HORIZONTAL" then
          let info := autoLayoutInfo element cps
          if 1 < info.columns then info else pos_info
        else pos_info

/-! ## Fill extraction (`extract_fills_styles`)

The source builds CSS declaration strings; the embedding returns them
structurally (`CssPart`), carrying the computed rgba components and alpha as
exact numbers — the `f"{...:.2f}"`/angle formatting of the source is
presentational and not modelled. -/

/-- One CSS declaration emitted by `extract_fills_styles`. -/
inductive CssPart : Type where
  | backgroundColor (r g b : ℤ) (alpha : ℚ)
  | gradient (fillType : String) (stops : List (ℤ × ℤ × ℤ × ℚ × ℚ))
deriving Repr, DecidableEq

/-- `int(round(color.get("r", 0) * 255))` (etc.). -/
def rgb255 (c : FColor) : ℤ × ℤ × ℤ :=
  (pyRound (c.r * 255), pyRound (c.g * 255), pyRound (c.b * 255))

/-- `alpha = max(0.0, min(1.0, fill_opacity * node_opacity))`. -/
def compositeAlpha (node_opacity : ℚ) (fill : Fill) : ℚ :=
  max 0 (min 1 (fill.opacity * node_opacity))

/-- The base-color scan inside the gradient branch: the first (bottom-most,
original order) visible SOLID fill. -/
def gradientBaseSolid (fills : List Fill) : Option Fill :=
  fills.find? fun b => ¬ b.visible = some false ∧ b.type = "SOLID"

/-- The `for idx, fill in enumerate(reversed(fills))` loop of
`extract_fills_styles`: `fills_orig` is the original (bottom-to-top) list,
the loop argument runs top-to-bottom.  A fill hidden by `visible == False`
or with composite alpha ≤ 0 is skipped entirely; the first SOLID fill
emits `background-color` and breaks; the first gradient fill with stops
emits an optional base `background-color` (from the bottom-most visible
SOLID, alpha `color.a * node_opacity`) plus the gradient and breaks; any
other paint type (e.g. IMAGE) is passed over. -/
def fillsLoop (fills_orig : List Fill) (node_opacity : ℚ) :
    List Fill → List CssPart
  | [] => []
  | fill :: rest =>
    if fill.visible = some false then fillsLoop fills_orig node_opacity rest
    else
      let alpha := compositeAlpha node_opacity fill
      if alpha ≤ 0 then fillsLoop fills_orig node_opacity rest
      else if fill.type = "SOLID" then
        let (r, g, b) := rgb255 fill.color
        [.backgroundColor r g b alpha]
      else if strStartsW fill.type "GRADIENT_" then
        if fill.gradientStops.isEmpty then
          fillsLoop fills_orig node_opacity rest
        else
          let stops := fill.gradientStops.map fun stop =>
            let (r, g, b) := rgb255 stop.color
            (r, g, b, stop.color.a * alpha, stop.position * 100)
          (match gradientBaseSolid fills_orig with
            | some base =>
              let (br, bg, bb) := rgb255 base.color
              [.backgroundColor br bg bb (base.color.a * node_opacity)]
            | none => []) ++ [.gradient fill.type stops]
      else fillsLoop fills_orig node_opacity rest

/-- `extract_fills_styles(element)`. -/
def extract_fills_styles (element : Node) : List CssPart :=
  let fills := element.data.fills
  if fills.isEmpty then []
  else fillsLoop fills element.data.opacity fills.reverse

/-! ## Shallow-wrapper flattening (`is_shallow_wrapper_candidate` and the
elision dispatch of `generate_element_html`) -/

/-- `_visible_children(node)`: the children that survive the exclusion
predicate. -/
def visible_children (excl : Node → Bool) (node : Node) : List Node :=
  node.children.filter fun c => !excl c

/-- `_has_padding(node)`: any of the four `padding*` values (default 0) is
positive. -/
def has_padding (node : Node) : Bool :=
  0 < node.data.paddingLeft ∨ 0 < node.data.paddingRight ∨
    0 < node.data.paddingTop ∨ 0 < node.data.paddingBottom

/-- `_has_layout_role(node)`: an auto-layout container counts as a layout
role only when its `itemSpacing` gap is positive. -/
def has_layout_role (node : Node) : Bool :=
  if node.data.layoutMode = "HORIZONTAL" ∨ node.data.layoutMode = "VERTICAL"
  then 0 < node.data.itemSpacing
  else false

/-- `_has_visible_fill(node)`.  Note the source's `float(... or 1)`: an
opacity (or color alpha) equal to 0 is falsy, so `or 1` turns it into 1 and
the `<= 0` test only fires for negative values. -/
def has_visible_fill (node : Node) : Bool :=
  node.data.fills.any fun f =>
    let op := if f.opacity = 0 then (1 : ℚ) else f.opacity
    let av := if f.color.a = 0 then (1 : ℚ) else f.color.a
    ¬ f.visible = some false ∧
      (f.type = "SOLID" ∨ f.type = "GRADIENT_LINEAR" ∨
        f.type = "GRADIENT_RADIAL" ∨ f.type = "GRADIENT_ANGULAR" ∨
        f.type = "GRADIENT_DIAMOND" ∨ f.type = "IMAGE") ∧
      ¬ op ≤ 0 ∧ ¬ av ≤ 0

/-- `is_shallow_wrapper_candidate(node)`; `flatten` is the env-controlled
`FLATTEN_SHALLOW_WRAPPERS` flag, whose default is `false`. -/
def is_shallow_wrapper_candidate (flatten : Bool) (excl : Node → Bool)
    (node : Node) : Bool :=
  if flatten = false then false
  else if ¬ (node.data.type = "FRAME" ∨ node.data.type = "GROUP") then false
  else if (visible_children excl node).length ≠ 1 then false
  else if has_visible_fill node then false
  else if node.data.strokes.isEmpty = false then false
  else if node.data.effects.isEmpty = false then false
  else if ¬ node.data.cornerRadius = 0 ∨
      node.data.rectangleCornerRadii.isEmpty = false then false
  else if node.data.clipsContent then false
  else if has_padding node then false
  else if has_layout_role node then false
  else true

/-- The module-level `FLATTEN_SHALLOW_WRAPPERS` flag's default value:
`os.getenv("FLATTEN_SHALLOW_WRAPPERS", "false").lower() == "true"` is
`false` when the environment variable is unset. -/
def FLATTEN_SHALLOW_WRAPPERS : Bool := false

/-- The generation context threaded through `generate_element_html`:
`parent_layout_mode`, `parent_padding`, `child_index`. -/
structure GenCtx where
  parent_layout_mode : Option String := none
  parent_padding : Option (ℚ × ℚ) := none
  child_index : Option ℤ := none

/-- The markup tree produced by `generate_element_html`, at the granularity
the shallow-wrapper claim constrains: an excluded node yields nothing, a
TEXT node a heading/paragraph tag, a container either an element wrapping
its children's markup or — elided — its single child's markup in its own
place, and a childless non-TEXT node some leaf element.  Class attributes,
inline styles and the style-collection side effects are not modelled. -/
inductive Html : Type where
  | empty
  | textEl (tag : String) (content : String)
  | containerEl (node : Node) (children : List Html)
  | leafEl (node : Node)
deriving Repr

/-- A child is structurally smaller than its parent node (for the
termination of the recursive markup generation). -/
theorem Node.sizeOf_lt_of_mem_children {c n : Node} (h : c ∈ n.children) :
    sizeOf c < sizeOf n := by
  cases n with
  | mk d cs =>
    have hlt : sizeOf c < sizeOf cs := List.sizeOf_lt_of_mem h
    simp only [Node.mk.sizeOf_spec]
    omega

/-- The dispatch skeleton of `generate_element_html(element, ...)`:
exclusion first, then the TEXT branch, then the container branch
(`type == "FRAME"` or non-empty children), whose first step is the
conservative shallow-wrapper elision: a candidate with exactly one visible
child returns the recursive call on that child, passing the wrapper's
analyzed `layout_mode` as `parent_layout_mode` and the wrapper's
`(paddingLeft, paddingRight)` as `parent_padding` — no element of its own.
The non-elided container emits a wrapper element around its children's
markup; leaf classification below the container branch is represented by
`leafEl`. -/
def generate_element_html (flatten : Bool) (excl : Node → Bool)
    (hcfg : HeadingCfg) (hst : HeadingState) :
    Node → GenCtx → Html
  | e, ctx =>
    if excl e then .empty
    else if e.data.type = "TEXT" then
      .textEl (detect_heading_level hcfg hst e).1 e.data.characters
    else if e.data.type = "FRAME" ∨ e.children.isEmpty = false then
      if h1 : is_shallow_wrapper_candidate flatten excl e then
        match h : visible_children excl e with
        | [vc] =>
          let layout_info := analyze_layout_structure excl e
          generate_element_html flatten excl hcfg hst vc
            { parent_layout_mode := some layout_info.layout_mode
              parent_padding :=
                some (e.data.paddingLeft, e.data.paddingRight)
              child_index := ctx.child_index }
        | _ =>
          .containerEl e (e.children.attach.map fun c =>
            generate_element_html flatten excl hcfg hst c.1
              { parent_layout_mode :=
                  some (analyze_layout_structure excl e).layout_mode
                parent_padding :=
                  some (e.data.paddingLeft, e.data.paddingRight) })
      else
        .containerEl e (e.children.attach.map fun c =>
          generate_element_html flatten excl hcfg hst c.1
            { parent_layout_mode :=
                some (analyze_layout_structure excl e).layout_mode
              parent_padding :=
                some (e.data.paddingLeft, e.data.paddingRight) })
    else .leafEl e
termination_by e _ => sizeOf e
decreasing_by
  · have hvc : vc ∈ visible_children excl e := by simp [h]
    exact Node.sizeOf_lt_of_mem_children (List.mem_of_mem_filter hvc)
  · exact Node.sizeOf_lt_of_mem_children c.2
  · exact Node.sizeOf_lt_of_mem_children c.2

/-! ## Style collection (`merge_css_props`, `add_node_styles`)

`collected_node_styles` is the module-level `nodeId -> [declaration]` map,
modelled as an insertion-ordered association list (Python dict semantics:
assignment keeps the key's first-insertion position). -/

/-- Ordered-dict lookup. -/
def dictGet {β : Type} (l : List (String × β)) (k : String) : Option β :=
  (l.find? fun p => p.1 = k).map fun p => p.2

/-- Ordered-dict assignment: overwrite in place, or append a new key. -/
def dictSet {β : Type} (k : String) (v : β) :
    List (String × β) → List (String × β)
  | [] => [(k, v)]
  | p :: rest => if p.1 = k then (k, v) :: rest else p :: dictSet k v rest

/-- `prop.split(':', 1)[0].strip().lower()`. -/
def prop_name (prop : String) : String :=
  pyLower (pyStrip (String.mk (prop.toList.takeWhile fun c => c != ':')))

/-- `merge_css_props(existing_props, new_props)`: build an ordered dict
keyed by lowercased property name (declarations without a colon are
dropped), existing first, then the new declarations overwriting, and return
the dict's values. -/
def merge_css_props (existing_props new_props : List String) : List String :=
  if existing_props.isEmpty then new_props
  else if new_props.isEmpty then existing_props
  else
    let prop_dict := existing_props.foldl
      (fun d prop => if hasColon prop then dictSet (prop_name prop) prop d
        else d) []
    let prop_dict := new_props.foldl
      (fun d prop => if hasColon prop then dictSet (prop_name prop) prop d
        else d) prop_dict
    prop_dict.map fun p => p.2

/-- The configuration read by `add_node_styles`' `allowed` filter:
`NODE_STYLE_SCOPE` (default `"conservative"`) and
`SUPPRESS_CONTAINER_WIDTH` (default `true`). -/
structure StyleScopeCfg where
  scope : String := "conservative"
  suppress_container_width : Bool := true
deriving Repr, DecidableEq

/-- The `allowed(prop)` filter of `add_node_styles`; `kind` stands for
`NODE_KIND_MAP.get(css_safe_identifier(node_id))`. -/
def allowed_prop (cfg : StyleScopeCfg) (kind : Option String)
    (prop : String) : Bool :=
  if prop = "" then false
  else
    let p := pyLower (pyStrip prop)
    let always :=
      strStartsW p "display:" ∨ strStartsW p "flex-" ∨
      strStartsW p "justify-" ∨ strStartsW p "align-" ∨
      strStartsW p "gap:" ∨ strStartsW p "padding" ∨
      strStartsW p "overflow:" ∨
      (strStartsW p "width:" ∧ cfg.suppress_container_width = false) ∨
      (strStartsW p "min-width:" ∧ cfg.suppress_container_width = false) ∨
      strStartsW p "max-width:" ∨
      strStartsW p "height:" ∨ strStartsW p "min-height:" ∨
      strStartsW p "max-height:" ∨
      strStartsW p "transform:" ∨ strStartsW p "transform-origin"
    if always then true
    else if cfg.scope = "aggressive" then true
    else if strStartsW p "color:" ∧ ¬ kind = some "text" then false
    else if cfg.scope = "standard" then true
    else if kind = some "text" then
      strStartsW p "color:" ∨ strStartsW p "text-decoration" ∨
        strStartsW p "text-transform" ∨ strStartsW p "font-style" ∨
        strStartsW p "margin:"
    else
      strStartsW p "background" ∨ strStartsW p "border" ∨
        strStartsW p "box-shadow" ∨ strStartsW p "filter" ∨
        strStartsW p "backdrop-filter" ∨ strStartsW p "mix-blend-mode" ∨
        strStartsW p "aspect-ratio" ∨
        strStartsW p "width" ∨ strStartsW p "height" ∨
        strStartsW p "min-width" ∨ strStartsW p "min-height" ∨
        strStartsW p "overflow" ∨ strStartsW p "transform" ∨
        strStartsW p "transform-origin"

/-- `add_node_styles(node_id, style_props)` acting on the collected map:
filter through `allowed`, de-duplicate the filtered batch by exact string,
then append to the node's bucket every declaration not already present
verbatim.  (`COLLECT_NODE_STYLES` is `True` throughout the source.) -/
def add_node_styles (cfg : StyleScopeCfg) (kind : Option String)
    (collected : List (String × List String)) (node_id : String)
    (style_props : List String) : List (String × List String) :=
  if node_id = "" then collected
  else
    let filtered := style_props.foldl
      (fun acc prop =>
        if allowed_prop cfg kind prop ∧ acc.contains prop = false then
          acc ++ [prop]
        else acc) []
    if filtered.isEmpty then collected
    else
      let bucket := (dictGet collected node_id).getD []
      let bucket := filtered.foldl
        (fun b prop =>
          if ¬ prop = "" ∧ b.contains prop = false then b ++ [prop] else b)
        bucket
      dictSet node_id bucket collected

/-! ## Style deduplication (`tools/unify_styles.py`)

CSS declaration dicts are insertion-ordered association lists with unique
keys; numeric `px` values are modelled as integer literals (on them Python's
`int(round(float(s)))` is the identity; a non-numeric string makes
`_px_int` return `None`). -/

namespace Unify

/-- Lexicographic code-point comparison, Python's `<` on strings. -/
def strLt : List Char → List Char → Bool
  | [], [] => false
  | [], _ :: _ => true
  | _ :: _, [] => false
  | x :: xs, y :: ys =>
    if x < y then true else if y < x then false else strLt xs ys

/-- `a < b` on strings. -/
def strLtB (a b : String) : Bool := strLt a.toList b.toList

/-- `_px_int(v)`: strip, drop a trailing `px`, parse the integer. -/
def px_int (v : String) : Option ℤ :=
  let v := pyStrip v
  if strEndsW v "px" then parseInt (strDropRight v 2) else parseInt v

/-- `_quantize_px(value_px, step_px, max_dev_px)`: snap to the nearest
multiple of `step_px` (Python `round`, half-to-even) when within
`max_dev_px`, else keep the original value. -/
def quantize_px (value_px step_px max_dev_px : ℤ) : ℤ :=
  let snapped := pyRound ((value_px : ℚ) / (step_px : ℚ)) * step_px
  if |value_px - snapped| ≤ max_dev_px then snapped else value_px

/-- A declaration dict (property → value), insertion-ordered. -/
abbrev Decls := List (String × String)

/-- The `font-size` allowed set of `QUANT`. -/
def fontSizeAllowed : List ℤ := [12, 14, 16, 18, 20, 24, 28, 32, 36, 40, 44]

/-- Python `min(allowed, key=lambda a: abs(a-px))` — first minimiser wins. -/
def nearestAllowed (px : ℤ) : List ℤ → ℤ → ℤ
  | [], best => best
  | a :: rest, best =>
    nearestAllowed px rest (if |a - px| < |best - px| then a else best)

/-- `quantize_decls(decls)`: snap `gap` to a 4px grid (±2), `border-radius`
to a 2px grid (±1), `font-size` to the nearest allowed size (±1), drop
`width:auto` and every explicit width other than `100%`. -/
def quantize_decls (decls : Decls) : Decls :=
  let out := decls
  let out := match dictGet out "gap" with
    | some v => match px_int v with
      | some px => dictSet "gap" (toString (quantize_px px 4 2) ++ "px") out
      | none => out
    | none => out
  let out := match dictGet out "border-radius" with
    | some v => match px_int v with
      | some px =>
        dictSet "border-radius" (toString (quantize_px px 2 1) ++ "px") out
      | none => out
    | none => out
  let out := match dictGet out "font-size" with
    | some v => match px_int v with
      | some px =>
        let nearest := nearestAllowed px fontSizeAllowed.tail
          (fontSizeAllowed.headD 0)
        if |nearest - px| ≤ 1 then
          dictSet "font-size" (toString nearest ++ "px") out
        else dictSet "font-size" (toString px ++ "px") out
      | none => out
    | none => out
  let w := pyLower (pyStrip ((dictGet out "width").getD ""))
  if w = "auto" then out.filter (fun p => ¬ p.1 = "width")
  else if ¬ w = "" ∧ ¬ w = "100%" then out.filter (fun p => ¬ p.1 = "width")
  else out

/-- Insert a pair after every pair with a `≤` key (stable key sort). -/
def insertPair (p : String × String) :
    List (String × String) → List (String × String)
  | [] => [p]
  | q :: qs =>
    if strLtB q.1 p.1 ∨ q.1 = p.1 then q :: insertPair p qs else p :: q :: qs

/-- Python `sorted(decls.items())` (keys are unique). -/
def sortPairs (l : Decls) : Decls :=
  l.foldl (fun acc p => insertPair p acc) []

/-- `signature(decls)`: `"k:v"` pairs in sorted key order, joined by `;`. -/
def signature (decls : Decls) : String :=
  String.intercalate ";" ((sortPairs decls).map fun p => p.1 ++ ":" ++ p.2)

/-- The `g{px}` token: `re.match(r"\d+px", g)` then the first digit run. -/
def gapToken (g : String) : List String :=
  let ds := g.toList.takeWhile Char.isDigit
  if ds.isEmpty = false ∧
      strStartsW (String.mk (g.toList.drop ds.length)) "px" then
    ["g" ++ String.mk ds]
  else []

/-- `util_name_from(decls)`: short-code naming.  The hash fallback for a
token-less signature (`abs(hash(sig)) % 10**8`, a runtime-randomised string
hash in Python) is modelled by the signature itself as an injective
stand-in; no claim depends on that branch. -/
def util_name_from (decls : Decls) : String :=
  let toks : List String :=
    (if dictGet decls "display" = some "flex" then
      (match dictGet decls "flex-direction" with
        | some "row" => ["r"]
        | some "column" => ["c"]
        | _ => []) ++
      (match dictGet decls "gap" with
        | some g => gapToken g
        | none => []) ++
      (match dictGet decls "justify-content" with
        | some "flex-start" => ["js"]
        | some "center" => ["jc"]
        | some "flex-end" => ["je"]
        | some "space-between" => ["jb"]
        | some "space-around" => ["ja"]
        | some "space-evenly" => ["jv"]
        | _ => []) ++
      (match dictGet decls "align-items" with
        | some "flex-start" => ["as"]
        | some "center" => ["ac"]
        | some "flex-end" => ["ae"]
        | some "stretch" => ["at"]
        | _ => []) ++
      (match dictGet decls "flex-wrap" with
        | some "wrap" => ["w"]
        | some "nowrap" => ["nw"]
        | _ => [])
    else []) ++
    (if dictGet decls "width" = some "100%" then ["w100"] else [])
  if toks.isEmpty then "u-sign-" ++ signature decls
  else "u-" ++ String.intercalate "-" toks

/-- The selector filter of `main`: starts with `.`, matches
`^\.[a-zA-Z0-9_-]+$`, and starts with `.n-`. -/
def selOk (sel : String) : Bool :=
  strStartsW sel "." ∧
    (let rest := strDrop sel 1
     ¬ rest = "" ∧
       rest.toList.all fun c => c.isAlphanum ∨ c = '_' ∨ c = '-') ∧
    strStartsW sel ".n-"

/-- `bucket.setdefault(sig, []).append(sel)`. -/
def dictAppend (k : String) (v : String) :
    List (String × List String) → List (String × List String)
  | [] => [(k, [v])]
  | p :: rest =>
    if p.1 = k then (p.1, p.2 ++ [v]) :: rest else p :: dictAppend k v rest

/-- The grouping loop of `main`: for each rule whose selector passes
`selOk`, quantize, compute the signature, skip empty signatures, append the
selector to the signature's bucket and record the quantized declarations. -/
def buildBuckets (rules : List (String × Decls)) :
    List (String × List String) × List (String × Decls) :=
  rules.foldl
    (fun acc rule =>
      if selOk rule.1 = false then acc
      else
        let q := quantize_decls rule.2
        let sig := signature q
        if sig = "" then acc
        else (dictAppend sig rule.1 acc.1, dictSet sig q acc.2))
    ([], [])

/-- The utility-emission loop of `main`: every signature bucket with ≥ 2
selectors yields one utility class (`util_map[uname] = decls`) and maps each
participating class name (selector minus the leading dot) to it. -/
def unify_main (rules : List (String × Decls)) :
    List (String × Decls) × List (String × String) :=
  let built := buildBuckets rules
  built.1.foldl
    (fun acc bucketEntry =>
      if bucketEntry.2.length < 2 then acc
      else
        let decls := (dictGet built.2 bucketEntry.1).getD []
        let uname := util_name_from decls
        let util_map := dictSet uname decls acc.1
        let class_to_util := bucketEntry.2.foldl
          (fun m s => dictSet (strDrop s 1) uname m) acc.2
        (util_map, class_to_util))
    ([], [])

/-- Ordered insert for `sortStrings`. -/
def insStr (s : String) : List String → List String
  | [] => [s]
  | t :: ts => if strLtB t s ∨ t = s then t :: insStr s ts else s :: t :: ts

/-- Stable string sort (Python `sorted` over the extra-utilities set). -/
def sortStrings (l : List String) : List String :=
  l.foldl (fun acc s => insStr s acc) []

/-- The `add_util` rewriting of one element's `class="..."` list: collect
the utilities mapped from the element's classes (a set, iterated in sorted
order) and append the ones not already present. -/
def annotateClasses (class_to_util : List (String × String))
    (arr : List String) : List String :=
  let extra := arr.foldl
    (fun ex c => match dictGet class_to_util c with
      | some u => if ex.contains u then ex else ex ++ [u]
      | none => ex) []
  (sortStrings extra).foldl
    (fun a e => if a.contains e then a else a ++ [e]) arr

end Unify

/-! ## Supporting lemmas -/

mutual

/-- A node returned by `find_node_by_id` carries the requested id. -/
theorem find_node_by_id_id_eq (node : Node) (tid : String) (n : Node)
    (h : find_node_by_id node tid = some n) : n.data.id = tid := by
  cases node with
  | mk d cs =>
    rw [find_node_by_id] at h
    by_cases hid : d.id = tid
    · rw [if_pos hid] at h
      cases h
      simpa using hid
    · rw [if_neg hid] at h
      exact find_node_by_id_list_id_eq cs tid n h

/-- List version of `find_node_by_id_id_eq`. -/
theorem find_node_by_id_list_id_eq (cs : List Node) (tid : String) (n : Node)
    (h : find_node_by_id_list cs tid = some n) : n.data.id = tid := by
  cases cs with
  | nil => simp [find_node_by_id_list] at h
  | cons c rest =>
    rw [find_node_by_id_list] at h
    cases hc : find_node_by_id c tid with
    | some found =>
      rw [hc] at h
      cases h
      exact find_node_by_id_id_eq c tid _ hc
    | none =>
      rw [hc] at h
      exact find_node_by_id_list_id_eq rest tid n h

end

/-- Modelled from the spec's words, for comparison with the loop embedding:
the consecutive-gap splitter — walking the sorted list, a section closes
exactly when the next element's Y exceeds the previous element's bottom
edge by more than the threshold (auxiliary walker carrying the open
section and the previous element). -/
def gapSplitGo (threshold : ℚ) (cur : List Node) (prev : Node) :
    List Node → List (List Node)
  | [] => [cur]
  | n :: ns =>
    if nodeY n - (nodeY prev + nodeHeight prev) > threshold then
      cur :: gapSplitGo threshold [n] n ns
    else gapSplitGo threshold (cur ++ [n]) n ns

/-- Modelled from the spec's words: split a Y-sorted list into sections at
exactly the gaps exceeding the threshold. -/
def gapSplit (threshold : ℚ) : List Node → List (List Node)
  | [] => []
  | n :: ns => gapSplitGo threshold [n] n ns

/-- The element lists of the position-detection loop coincide with the
consecutive-gap splitter (fold invariant). -/
theorem posLoop_map_elements (t : ℚ) :
    ∀ (ns : List Node) (prev : Node) (cur : List Node)
      (sections : List Section), cur ≠ [] →
      (posFinish (ns.foldl (posStep t)
          { sections := sections, current := cur
            last_y := nodeY prev + nodeHeight prev })).map
          (fun s => s.elements) =
        sections.map (fun s => s.elements) ++ gapSplitGo t cur prev ns := by
  intro ns
  induction ns with
  | nil =>
    intro prev cur sections hcur
    have hne : cur.isEmpty = false := by
      cases cur with
      | nil => exact absurd rfl hcur
      | cons a l => rfl
    simp [posFinish, hne, mkPositionSection, gapSplitGo]
  | cons n ns ih =>
    intro prev cur sections hcur
    have hne : cur.isEmpty = false := by
      cases cur with
      | nil => exact absurd rfl hcur
      | cons a l => rfl
    rw [List.foldl_cons]
    by_cases hgap : nodeY n - (nodeY prev + nodeHeight prev) > t
    · have hstep : posStep t
          { sections := sections, current := cur
            last_y := nodeY prev + nodeHeight prev } n =
          { sections := sections ++
              [mkPositionSection cur (nodeY prev + nodeHeight prev)]
            current := [n], last_y := nodeY n + nodeHeight n } := by
        simp [posStep, hgap, hne]
      rw [hstep, ih n [n] _ (by simp)]
      rw [show gapSplitGo t cur prev (n :: ns) =
        cur :: gapSplitGo t [n] n ns from by rw [gapSplitGo, if_pos hgap]]
      simp [mkPositionSection]
    · have hstep : posStep t
          { sections := sections, current := cur
            last_y := nodeY prev + nodeHeight prev } n =
          { sections := sections, current := cur ++ [n]
            last_y := nodeY n + nodeHeight n } := by
        simp [posStep, hgap]
      rw [hstep, ih n (cur ++ [n]) sections (by simp)]
      rw [show gapSplitGo t cur prev (n :: ns) =
        gapSplitGo t (cur ++ [n]) n ns from by rw [gapSplitGo, if_neg hgap]]

/-- `detect_sections_by_position` refines the consecutive-gap splitter on
the sorted, exclusion-filtered descendant list. -/
theorem detect_by_position_elements (excl : Node → Bool) (node : Node)
    (t : ℚ) :
    (detect_sections_by_position excl node t).map (fun s => s.elements) =
      gapSplit t (sortByKey nodeY
        ((get_all_child_elements excl node).filter fun el => !excl el)) := by
  rw [detect_sections_by_position]
  cases hs : sortByKey nodeY
      ((get_all_child_elements excl node).filter fun el => !excl el) with
  | nil => simp [posFinish, gapSplit]
  | cons n ns =>
    have hstep : posStep t {} n =
        { sections := [], current := [n]
          last_y := nodeY n + nodeHeight n } := by
      simp [posStep]
    rw [List.foldl_cons, hstep]
    have h := posLoop_map_elements t ns n [n] [] (by simp)
    simpa [gapSplit] using h

/-- Every section the position loop produces is non-empty, nameless and of
type `position_detected` (fold invariant). -/
theorem posLoop_sections_inv (t : ℚ) :
    ∀ (ns : List Node) (st : PosLoopState),
      (∀ s ∈ st.sections,
        s.elements ≠ [] ∧ s.name = none ∧ s.type = "position_detected") →
      ∀ s ∈ posFinish (ns.foldl (posStep t) st),
        s.elements ≠ [] ∧ s.name = none ∧ s.type = "position_detected" := by
  intro ns
  induction ns with
  | nil =>
    intro st hst s hs
    rw [List.foldl_nil] at hs
    rw [posFinish] at hs
    by_cases hc : st.current.isEmpty = false
    · rw [if_pos hc] at hs
      rcases List.mem_append.mp hs with h | h
      · exact hst s h
      · rcases List.mem_singleton.mp h with rfl
        refine ⟨?_, rfl, rfl⟩
        intro hnil
        rw [show mkPositionSection st.current st.last_y =
          { type := "position_detected", elements := st.current
            y_start := (st.current.headD (.mk {} [])).bbox.y
            y_end := st.last_y } from rfl] at hnil
        simp at hnil
        rw [hnil] at hc
        simp at hc
    · rw [if_neg hc] at hs
      exact hst s hs
  | cons n ns ih =>
    intro st hst s hs
    rw [List.foldl_cons] at hs
    refine ih (posStep t st n) ?_ s hs
    intro s2 hs2
    rw [posStep] at hs2
    by_cases hcond : nodeY n - st.last_y > t ∧ st.current.isEmpty = false
    · rw [if_pos hcond] at hs2
      simp only at hs2
      rcases List.mem_append.mp hs2 with h | h
      · exact hst s2 h
      · rcases List.mem_singleton.mp h with rfl
        refine ⟨?_, rfl, rfl⟩
        intro hnil
        have : st.current = [] := by
          simpa [mkPositionSection] using hnil
        rw [this] at hcond
        exact absurd hcond.2 (by simp)
    · rw [if_neg hcond] at hs2
      exact hst s2 hs2

/-- The gap splitter is a partition: joining the parts restores the list. -/
theorem gapSplitGo_join (t : ℚ) :
    ∀ (ns : List Node) (cur : List Node) (prev : Node),
      (gapSplitGo t cur prev ns).flatten = cur ++ ns := by
  intro ns
  induction ns with
  | nil => intro cur prev; simp [gapSplitGo]
  | cons n ns ih =>
    intro cur prev
    rw [gapSplitGo]
    by_cases hgap : nodeY n - (nodeY prev + nodeHeight prev) > t
    · rw [if_pos hgap]
      simp [ih]
    · rw [if_neg hgap]
      rw [ih]
      simp

/-- Joining the gap splitter's sections gives back the input list. -/
theorem gapSplit_join (t : ℚ) (l : List Node) :
    (gapSplit t l).flatten = l := by
  cases l with
  | nil => simp [gapSplit]
  | cons n ns => rw [gapSplit, gapSplitGo_join]; rfl

/-- Inserting keeps the list a permutation of pushing in front. -/
theorem insertByKey_perm {α : Type} (key : α → ℚ) (c : α) :
    ∀ l : List α, List.Perm (insertByKey key c l) (c :: l) := by
  intro l
  induction l with
  | nil => simp [insertByKey]
  | cons d ds ih =>
    rw [insertByKey]
    by_cases h : key d ≤ key c
    · rw [if_pos h]
      exact ((ih.cons d).trans (List.Perm.swap c d ds))
    · rw [if_neg h]

/-- The stable sort permutes its input. -/
theorem sortByKey_perm {α : Type} (key : α → ℚ) :
    ∀ (l acc : List α),
      List.Perm (l.foldl (fun acc c => insertByKey key c acc) acc)
        (acc ++ l) := by
  intro l
  induction l with
  | nil => intro acc; simp
  | cons c cs ih =>
    intro acc
    rw [List.foldl_cons]
    refine (ih (insertByKey key c acc)).trans ?_
    have h1 : List.Perm (insertByKey key c acc ++ cs) ((c :: acc) ++ cs) :=
      (insertByKey_perm key c acc).append_right cs
    refine h1.trans ?_
    rw [List.cons_append]
    exact List.perm_middle.symm
/-- Inserting into a list sorted by `key` keeps it sorted. -/
theorem insertByKey_sorted {α : Type} (key : α → ℚ) (c : α) :
    ∀ l : List α, List.Sorted (fun a b => key a ≤ key b) l →
      List.Sorted (fun a b => key a ≤ key b) (insertByKey key c l) := by
  intro l
  induction l with
  | nil =>
    intro _
    simp [insertByKey]
  | cons d ds ih =>
    intro h
    have h1 := List.sorted_cons.mp h
    rw [insertByKey]
    by_cases hd : key d ≤ key c
    · rw [if_pos hd]
      refine List.sorted_cons.mpr ⟨?_, ih h1.2⟩
      intro b hb
      rcases List.mem_cons.mp ((insertByKey_perm key c ds).mem_iff.mp hb) with
        rfl | hbds
      · exact hd
      · exact h1.1 b hbds
    · rw [if_neg hd]
      refine List.sorted_cons.mpr ⟨?_, h⟩
      intro b hb
      rcases List.mem_cons.mp hb with rfl | hbds
      · exact le_of_not_le hd
      · exact le_trans (le_of_not_le hd) (h1.1 b hbds)

/-- The fold underlying `sortByKey` keeps the accumulator sorted. -/
theorem sortByKey_fold_sorted {α : Type} (key : α → ℚ) :
    ∀ (l acc : List α), List.Sorted (fun a b => key a ≤ key b) acc →
      List.Sorted (fun a b => key a ≤ key b)
        (l.foldl (fun acc c => insertByKey key c acc) acc) := by
  intro l
  induction l with
  | nil => intro acc h; simpa using h
  | cons c cs ih =>
    intro acc h
    rw [List.foldl_cons]
    exact ih _ (insertByKey_sorted key c acc h)

/-- `sortByKey` sorts by the key. -/
theorem sortByKey_sorted {α : Type} (key : α → ℚ) (l : List α) :
    List.Sorted (fun a b => key a ≤ key b) (sortByKey key l) :=
  sortByKey_fold_sorted key l [] (List.sorted_nil)

/-- Membership after a dict assignment: the new pair or an old member. -/
theorem mem_dictSet {β : Type} {k : String} {v : β} {e : String × β} :
    ∀ {l : List (String × β)}, e ∈ dictSet k v l → e = (k, v) ∨ e ∈ l := by
  intro l
  induction l with
  | nil => intro h; simpa [dictSet] using h
  | cons p rest ih =>
    intro h
    rw [dictSet] at h
    by_cases hp : p.1 = k
    · rw [if_pos hp] at h
      rcases List.mem_cons.mp h with h1 | h2
      · exact Or.inl h1
      · exact Or.inr (List.mem_cons_of_mem p h2)
    · rw [if_neg hp] at h
      rcases List.mem_cons.mp h with h1 | h2
      · exact Or.inr (h1 ▸ List.mem_cons_self p rest)
      · rcases ih h2 with h3 | h4
        · exact Or.inl h3
        · exact Or.inr (List.mem_cons_of_mem p h4)

/-- Lookup after a cons. -/
theorem dictGet_cons {β : Type} (x : String × β) (l : List (String × β))
    (k : String) :
    dictGet (x :: l) k = if x.1 = k then some x.2 else dictGet l k := by
  rw [dictGet, List.find?_cons]
  by_cases h : x.1 = k
  · simp [h]
  · simp [h, dictGet]

/-- Lookup after a dict assignment. -/
theorem dictGet_dictSet {β : Type} (k k2 : String) (v : β) :
    ∀ d : List (String × β),
      dictGet (dictSet k2 v d) k = if k = k2 then some v else dictGet d k := by
  intro d
  induction d with
  | nil =>
    rw [dictSet, dictGet_cons, dictGet]
    by_cases h : k = k2
    · simp [h]
    · simp [h, Ne.symm h, dictGet]
  | cons a rest ih =>
    rw [dictSet]
    by_cases ha : a.1 = k2
    · rw [if_pos ha, dictGet_cons, dictGet_cons, ha]
      by_cases hk : k = k2
      · simp [hk]
      · simp [Ne.symm hk, hk, ha]
    · rw [if_neg ha, dictGet_cons, dictGet_cons, ih]
      by_cases hk : a.1 = k
      · rw [if_pos hk, if_pos hk]
        rw [if_neg (fun h2 : k = k2 => ha (hk.trans h2))]
      · rw [if_neg hk, if_neg hk]

/-- In a dict with pairwise-distinct keys, a member is what lookup finds. -/
theorem dictGet_of_mem {β : Type} :
    ∀ d : List (String × β), d.Pairwise (fun a b => a.1 ≠ b.1) →
      ∀ p ∈ d, dictGet d p.1 = some p.2 := by
  intro d
  induction d with
  | nil => intro _ p hp; exact absurd hp (List.not_mem_nil p)
  | cons a rest ih =>
    intro hpw p hp
    have h1 := List.pairwise_cons.mp hpw
    rcases List.mem_cons.mp hp with rfl | hmem
    · rw [dictGet_cons, if_pos rfl]
    · rw [dictGet_cons, if_neg (h1.1 p hmem), ih h1.2 p hmem]

/-- Dict assignment preserves pairwise-distinct keys. -/
theorem dictSet_pairwise {β : Type} (k : String) (v : β) :
    ∀ d : List (String × β), d.Pairwise (fun a b => a.1 ≠ b.1) →
      (dictSet k v d).Pairwise (fun a b => a.1 ≠ b.1) := by
  intro d
  induction d with
  | nil => intro _; simp [dictSet]
  | cons a rest ih =>
    intro hpw
    have h1 := List.pairwise_cons.mp hpw
    rw [dictSet]
    by_cases ha : a.1 = k
    · rw [if_pos ha]
      refine List.pairwise_cons.mpr ⟨?_, h1.2⟩
      intro b hb
      exact ha ▸ h1.1 b hb
    · rw [if_neg ha]
      refine List.pairwise_cons.mpr ⟨?_, ih h1.2⟩
      intro b hb
      rcases mem_dictSet hb with rfl | hmem
      · exact ha
      · exact h1.1 b hmem

/-- The dict fold shared by both loops of `merge_css_props`. -/
def mergeFold (props : List String) (d : List (String × String)) :
    List (String × String) :=
  props.foldl
    (fun d prop =>
      if hasColon prop then dictSet (prop_name prop) prop d else d) d

/-- The last declaration (scanning left to right, so the *latest*
contribution) with a colon whose property name is `k`, seeded with `init`. -/
def lastPropFrom (k : String) (init : Option String) (props : List String) :
    Option String :=
  props.foldl
    (fun acc prop =>
      if hasColon prop = true ∧ prop_name prop = k then some prop else acc)
    init

/-- The last-writer declaration for property `k` among `props`. -/
def lastPropWith (k : String) (props : List String) : Option String :=
  lastPropFrom k none props

/-- The dict fold looks up to the latest contribution for each name. -/
theorem dictGet_mergeFold (k : String) :
    ∀ (props : List String) (d : List (String × String)),
      dictGet (mergeFold props d) k = lastPropFrom k (dictGet d k) props := by
  intro props
  induction props with
  | nil => intro d; rfl
  | cons p props ih =>
    intro d
    have h1 : dictGet (mergeFold (p :: props) d) k =
        lastPropFrom k
          (dictGet (if hasColon p then dictSet (prop_name p) p d else d) k)
          props := by
      rw [show mergeFold (p :: props) d =
        mergeFold props (if hasColon p then dictSet (prop_name p) p d else d)
        from rfl, ih]
    rw [h1, show lastPropFrom k (dictGet d k) (p :: props) =
      lastPropFrom k
        (if hasColon p = true ∧ prop_name p = k then some p
         else dictGet d k) props from rfl]
    congr 1
    by_cases hc : hasColon p
    · rw [if_pos hc, dictGet_dictSet]
      by_cases hk : prop_name p = k
      · rw [if_pos (hk.symm), if_pos ⟨hc, hk⟩]
      · rw [if_neg (fun h : k = prop_name p => hk h.symm),
          if_neg (fun h => hk h.2)]
    · rw [if_neg hc, if_neg (fun h => hc h.1)]

/-- The merge-dict invariant: pairwise-distinct keys, each key being the
property name of its stored declaration. -/
def cssDictInv (d : List (String × String)) : Prop :=
  d.Pairwise (fun a b => a.1 ≠ b.1) ∧ ∀ p ∈ d, p.1 = prop_name p.2

/-- The dict fold preserves the merge-dict invariant. -/
theorem mergeFold_inv :
    ∀ (props : List String) (d : List (String × String)),
      cssDictInv d → cssDictInv (mergeFold props d) := by
  intro props
  induction props with
  | nil => intro d h; exact h
  | cons p props ih =>
    intro d h
    rw [mergeFold, List.foldl_cons]
    refine ih _ ?_
    by_cases hc : hasColon p
    · rw [if_pos hc]
      refine ⟨dictSet_pairwise _ _ d h.1, ?_⟩
      intro q hq
      rcases mem_dictSet hq with rfl | hmem
      · rfl
      · exact h.2 q hmem
    · rw [if_neg hc]
      exact h

/-- Invariant of the utility-emission fold of `unify_main`: every entry of
the accumulated utility map is derived from a bucket entry (drawn from
`l₀`) with at least two selectors. -/
theorem unify_fold_util_mem (s2d : List (String × Unify.Decls))
    (l₀ : List (String × List String)) :
    ∀ (l : List (String × List String))
      (acc : List (String × Unify.Decls) × List (String × String)),
      (∀ be ∈ l, be ∈ l₀) →
      (∀ e ∈ acc.1, ∃ be ∈ l₀, 2 ≤ be.2.length ∧
        e = (Unify.util_name_from ((dictGet s2d be.1).getD []),
             (dictGet s2d be.1).getD [])) →
      ∀ e ∈ (l.foldl
        (fun acc bucketEntry =>
          if bucketEntry.2.length < 2 then acc
          else
            let decls := (dictGet s2d bucketEntry.1).getD []
            let uname := Unify.util_name_from decls
            let util_map := dictSet uname decls acc.1
            let class_to_util := bucketEntry.2.foldl
              (fun m s => dictSet (strDrop s 1) uname m) acc.2
            (util_map, class_to_util)) acc).1,
        ∃ be ∈ l₀, 2 ≤ be.2.length ∧
          e = (Unify.util_name_from ((dictGet s2d be.1).getD []),
               (dictGet s2d be.1).getD []) := by
  intro l
  induction l with
  | nil =>
    intro acc _ hacc e he
    exact hacc e he
  | cons be rest ih =>
    intro acc hl hacc e he
    rw [List.foldl_cons] at he
    refine ih _ (fun b hb => hl b (List.mem_cons_of_mem be hb)) ?_ e he
    intro f hf
    by_cases hlen : be.2.length < 2
    · rw [if_pos hlen] at hf
      exact hacc f hf
    · rw [if_neg hlen] at hf
      rcases mem_dictSet hf with h1 | h2
      · exact ⟨be, hl be (List.mem_cons_self be rest), Nat.le_of_not_lt hlen,
          h1⟩
      · exact hacc f h2

/-- A fill that the top-down loop of `extract_fills_styles` passes over
without emitting anything or breaking: hidden (`visible == False`), of
composite alpha ≤ 0, or of a type that neither the SOLID branch nor the
gradient-with-stops branch catches (IMAGE, unknown, or gradient with no
stops). -/
def skippedFill (node_opacity : ℚ) (f : Fill) : Prop :=
  f.visible = some false ∨ compositeAlpha node_opacity f ≤ 0 ∨
    (¬ f.type = "SOLID" ∧
      ¬ (strStartsW f.type "GRADIENT_" = true ∧ f.gradientStops ≠ []))

instance (node_opacity : ℚ) (f : Fill) :
    Decidable (skippedFill node_opacity f) := by
  unfold skippedFill
  infer_instance

/-- The claim's description of the chosen fill, written from the spec's
words ("the first visible SOLID fill encountered from the top"), used to
compare the code against the claim. -/
def first_visible_solid_from_top (fills : List Fill) : Option Fill :=
  fills.reverse.find? fun f => ¬ f.visible = some false ∧ f.type = "SOLID"

/-- A skipped fill contributes nothing: one loop step is elided. -/
theorem fillsLoop_skip (fo : List Fill) (op : ℚ) (g : Fill)
    (rest : List Fill) (hg : skippedFill op g) :
    fillsLoop fo op (g :: rest) = fillsLoop fo op rest := by
  rw [fillsLoop]
  by_cases hv : g.visible = some false
  · rw [if_pos hv]
  · rw [if_neg hv]
    by_cases ha : compositeAlpha op g ≤ 0
    · rw [if_pos ha]
    · rw [if_neg ha]
      have ht : ¬ g.type = "SOLID" ∧
          ¬ (strStartsW g.type "GRADIENT_" = true ∧ g.gradientStops ≠ []) := by
        rcases hg with h | h | h
        · exact absurd h hv
        · exact absurd h ha
        · exact h
      rw [if_neg ht.1]
      by_cases hgr : strStartsW g.type "GRADIENT_" = true
      · rw [if_pos hgr]
        have hstops : g.gradientStops.isEmpty = true := by
          cases hst : g.gradientStops with
          | nil => rfl
          | cons a t => exact absurd ⟨hgr, by rw [hst]; simp⟩ ht.2
        rw [if_pos hstops]
      · rw [if_neg hgr]

/-- If every fill above `f` (top-down order) is skipped and `f` is a
visible SOLID fill with positive composite alpha, the loop emits exactly
`f`'s `background-color` with alpha `fillOpacity × nodeOpacity` clamped. -/
theorem fillsLoop_first_solid (fo : List Fill) (op : ℚ) :
    ∀ (pre : List Fill) (f : Fill) (post : List Fill),
      (∀ g ∈ pre, skippedFill op g) →
      ¬ f.visible = some false →
      ¬ compositeAlpha op f ≤ 0 →
      f.type = "SOLID" →
      fillsLoop fo op (pre ++ f :: post) =
        [CssPart.backgroundColor (pyRound (f.color.r * 255))
          (pyRound (f.color.g * 255)) (pyRound (f.color.b * 255))
          (compositeAlpha op f)] := by
  intro pre
  induction pre with
  | nil =>
    intro f post _ hv ha ht
    rw [List.nil_append, fillsLoop, if_neg hv, if_neg ha, if_pos ht]
    simp [rgb255]
  | cons g pre ih =>
    intro f post hpre hv ha ht
    rw [List.cons_append,
      fillsLoop_skip fo op g _ (hpre g (List.mem_cons_self g pre)),
      ih f post (fun x hx => hpre x (List.mem_cons_of_mem g hx)) hv ha ht]

/-! ## Concrete instances used by claim theorems and witnesses -/

/-- Bottom-most fill of the gradient-stack scenario: opaque red SOLID. -/
def fillRed : Fill :=
  { type := "SOLID", color := { r := 1, g := 0, b := 0, a := 1 } }

/-- Middle fill: opaque green SOLID. -/
def fillGreen : Fill :=
  { type := "SOLID", color := { r := 0, g := 1, b := 0, a := 1 } }

/-- Top fill: a linear gradient with one stop. -/
def fillGrad : Fill :=
  { type := "GRADIENT_LINEAR"
    gradientStops := [{ position := 0
                        color := { r := 1, g := 1, b := 1, a := 1 } }] }

/-- A node whose paint stack is red SOLID (bottom), green SOLID, gradient
(top). -/
def gradTopNode : Node :=
  Node.mk { fills := [fillRed, fillGreen, fillGrad] } []

/-- A node with `opacity 0.6` and a single SOLID fill with `color.a = 1`
and `opacity 0.5` — the compositing example. -/
def alphaNode : Node :=
  Node.mk
    { opacity := 6/10
      fills := [{ type := "SOLID", opacity := 1/2
                  color := { r := 1, g := 0, b := 0, a := 1 } }] }
    []

/-- The shared declaration set of the utility-folding scenario. -/
def declsAB : Unify.Decls :=
  [("display", "flex"), ("flex-direction", "row"), ("gap", "16px")]

/-- Node C's declaration set, differing only in `gap:18px`. -/
def declsC18 : Unify.Decls :=
  [("display", "flex"), ("flex-direction", "row"), ("gap", "18px")]

/-- A variant third declaration set with `gap:19px`. -/
def declsC19 : Unify.Decls :=
  [("display", "flex"), ("flex-direction", "row"), ("gap", "19px")]

/-- `gap:16px` is already on the 4px grid, so quantization is the identity
on the shared declaration set. -/
theorem quantize_declsAB : Unify.quantize_decls declsAB = declsAB := by
  simp [declsAB, Unify.quantize_decls, dictGet, dictSet, Unify.px_int, pyStrip,
    strEndsW, listIsPfx, strDropRight, parseInt, digitsToNat, pyLower,
    Unify.quantize_px, pyRound]
  norm_num [Int.fract]
  decide

/-- `gap:18px` snaps to `16px`: Python's `round(18/4) = round(4.5) = 4`
(half-to-even), `4*4 = 16`, and `|18-16| = 2` is within the 2px tolerance. -/
theorem quantize_declsC18 : Unify.quantize_decls declsC18 = declsAB := by
  simp [declsAB, declsC18, Unify.quantize_decls, dictGet, dictSet, Unify.px_int,
    pyStrip, strEndsW, listIsPfx, strDropRight, parseInt, digitsToNat, pyLower,
    Unify.quantize_px, pyRound]
  norm_num [Int.fract]
  decide

/-- `gap:19px` snaps to `20px` (`round(4.75) = 5`), a different signature
from the 16px group. -/
theorem quantize_declsC19 : Unify.quantize_decls declsC19 =
    [("display", "flex"), ("flex-direction", "row"), ("gap", "20px")] := by
  simp [declsC19, Unify.quantize_decls, dictGet, dictSet, Unify.px_int,
    pyStrip, strEndsW, listIsPfx, strDropRight, parseInt, digitsToNat, pyLower,
    Unify.quantize_px, pyRound]
  norm_num [Int.fract]
  decide

/-- Full evaluation of the deduplication pass on `A/B` (gap 16) plus `C`
with gap 18px: all three selectors land in one signature bucket, one
utility class `u-r-g16` is emitted and all three classes reference it. -/
theorem unify_main_AB_C18_eq :
    Unify.unify_main
        [(".n-a", declsAB), (".n-b", declsAB), (".n-c", declsC18)] =
      ([("u-r-g16", declsAB)],
       [("n-a", "u-r-g16"), ("n-b", "u-r-g16"), ("n-c", "u-r-g16")]) := by
  have hsa : Unify.selOk ".n-a" = true := by decide
  have hsb : Unify.selOk ".n-b" = true := by decide
  have hsc : Unify.selOk ".n-c" = true := by decide
  have hsig : Unify.signature declsAB =
      "display:flex;flex-direction:row;gap:16px" := by decide
  have hutil : Unify.util_name_from declsAB = "u-r-g16" := by decide
  have hda : strDrop ".n-a" 1 = "n-a" := by decide
  have hdb : strDrop ".n-b" 1 = "n-b" := by decide
  have hdc : strDrop ".n-c" 1 = "n-c" := by decide
  simp [Unify.unify_main, Unify.buildBuckets, hsa, hsb, hsc,
    quantize_declsAB, quantize_declsC18, hsig, hutil, hda, hdb, hdc,
    Unify.dictAppend, dictSet, dictGet]

/-- Full evaluation of the deduplication pass on `A/B` (gap 16) plus `C`
with gap 19px: `C` quantizes to `gap:20px`, its singleton bucket emits no
utility, and only `A`/`B` are mapped to `u-r-g16`. -/
theorem unify_main_AB_C19_eq :
    Unify.unify_main
        [(".n-a", declsAB), (".n-b", declsAB), (".n-c", declsC19)] =
      ([("u-r-g16", declsAB)],
       [("n-a", "u-r-g16"), ("n-b", "u-r-g16")]) := by
  have hsa : Unify.selOk ".n-a" = true := by decide
  have hsb : Unify.selOk ".n-b" = true := by decide
  have hsc : Unify.selOk ".n-c" = true := by decide
  have hsig : Unify.signature declsAB =
      "display:flex;flex-direction:row;gap:16px" := by decide
  have hsig20 : Unify.signature
      [("display", "flex"), ("flex-direction", "row"), ("gap", "20px")] =
      "display:flex;flex-direction:row;gap:20px" := by decide
  have hutil : Unify.util_name_from declsAB = "u-r-g16" := by decide
  have hda : strDrop ".n-a" 1 = "n-a" := by decide
  have hdb : strDrop ".n-b" 1 = "n-b" := by decide
  simp [Unify.unify_main, Unify.buildBuckets, hsa, hsb, hsc,
    quantize_declsAB, quantize_declsC19, hsig, hsig20, hutil, hda, hdb,
    Unify.dictAppend, dictSet, dictGet]

/-- A two-level document: root `0:0` with a single child `1:5`. -/
def docW : Node := Node.mk { id := "0:0", type := "DOCUMENT" }
  [Node.mk { id := "1:5", name := "Frame 1", type := "FRAME" } []]

/-- A TEXT node whose layer name contains `h1` (heading guess `h1` via the
layer-name block). -/
def titleTextNode : Node :=
  Node.mk { name := "h1 Hero Title", type := "TEXT" } []

/-- A TEXT node with `fontSize 32`, `fontWeight 700` (heading guess `h1` via
the size+weight block). -/
def bigTextNode : Node :=
  Node.mk { name := "plain text", type := "TEXT"
            style := { fontSize := 32, fontWeight := 700 } } []

/-! ## Claim theorems -/

/-- C3 counterexample: nodes A and B carry
`{display:flex; flex-direction:row; gap:16px}` and node C differs only by
`gap:18px`, which the claim calls outside quantization tolerance.  In fact
`18px` snaps to `16px` (Python `round(18/4) = 4` by half-to-even, and the
2px deviation equals `max_dev_px`), so C *is* folded into the very same
utility `u-r-g16` alongside A and B, refuting the claim as stated. -/
theorem gap18_node_is_folded_into_shared_utility :
    Unify.unify_main
        [(".n-a", declsAB), (".n-b", declsAB), (".n-c", declsC18)] =
      ([("u-r-g16", declsAB)],
       [("n-a", "u-r-g16"), ("n-b", "u-r-g16"), ("n-c", "u-r-g16")]) ∧
    dictGet (Unify.unify_main
        [(".n-a", declsAB), (".n-b", declsAB), (".n-c", declsC18)]).2 "n-c" =
      dictGet (Unify.unify_main
        [(".n-a", declsAB), (".n-b", declsAB), (".n-c", declsC18)]).2 "n-a" := by
  refine ⟨unify_main_AB_C18_eq, ?_⟩
  rw [unify_main_AB_C18_eq]
  simp [dictGet]

/-- C3 amended: a utility class is emitted only for a post-quantization
signature shared by ≥ 2 node classes (first conjunct, for every rule list);
in the A/B/C scenario a third node C is kept out of the shared utility when
its gap quantizes to a different value — e.g. `gap:19px`, which snaps to
`20px` — while A and B get the single utility `u-r-g16` appended to their
class lists; `gap:18px`, by contrast, quantizes to `16px` and is folded. -/
theorem utility_folding_amended :
    (∀ rules e, e ∈ (Unify.unify_main rules).1 →
      ∃ be ∈ (Unify.buildBuckets rules).1, 2 ≤ be.2.length ∧
        e.1 = Unify.util_name_from
          ((dictGet (Unify.buildBuckets rules).2 be.1).getD [])) ∧
    Unify.unify_main
        [(".n-a", declsAB), (".n-b", declsAB), (".n-c", declsC19)] =
      ([("u-r-g16", declsAB)],
       [("n-a", "u-r-g16"), ("n-b", "u-r-g16")]) ∧
    Unify.annotateClasses (Unify.unify_main
        [(".n-a", declsAB), (".n-b", declsAB), (".n-c", declsC19)]).2
      ["n-a"] = ["n-a", "u-r-g16"] ∧
    Unify.annotateClasses (Unify.unify_main
        [(".n-a", declsAB), (".n-b", declsAB), (".n-c", declsC19)]).2
      ["n-b"] = ["n-b", "u-r-g16"] ∧
    dictGet (Unify.unify_main
        [(".n-a", declsAB), (".n-b", declsAB), (".n-c", declsC19)]).2 "n-c" =
      none := by
  refine ⟨?_, unify_main_AB_C19_eq, ?_, ?_, ?_⟩
  · intro rules e he
    simp only [Unify.unify_main] at he
    have h := unify_fold_util_mem (Unify.buildBuckets rules).2
      (Unify.buildBuckets rules).1 (Unify.buildBuckets rules).1 ([], [])
      (fun b hb => hb) (fun f hf => absurd hf (List.not_mem_nil f)) e he
    rcases h with ⟨be, hbe, hlen, heq⟩
    exact ⟨be, hbe, hlen, by rw [heq]⟩
  · rw [unify_main_AB_C19_eq]
    simp [Unify.annotateClasses, dictGet, Unify.sortStrings, Unify.insStr]
  · rw [unify_main_AB_C19_eq]
    simp [Unify.annotateClasses, dictGet, Unify.sortStrings, Unify.insStr]
  · rw [unify_main_AB_C19_eq]
    simp [dictGet]

/-- Witness for C3 (amended) at a concrete input: the emitted utility
`u-r-g16` of the A/B/C19 run does come from a bucket with two selectors. -/
theorem utility_folding_amended_witness :
    ("u-r-g16", declsAB) ∈ (Unify.unify_main
        [(".n-a", declsAB), (".n-b", declsAB), (".n-c", declsC19)]).1 ∧
    ∃ be ∈ (Unify.buildBuckets
        [(".n-a", declsAB), (".n-b", declsAB), (".n-c", declsC19)]).1,
      2 ≤ be.2.length ∧
      ("u-r-g16", declsAB).1 = Unify.util_name_from
        ((dictGet (Unify.buildBuckets
          [(".n-a", declsAB), (".n-b", declsAB), (".n-c", declsC19)]).2
          be.1).getD []) :=
  ⟨by rw [unify_main_AB_C19_eq]; simp,
   utility_folding_amended.1
     [(".n-a", declsAB), (".n-b", declsAB), (".n-c", declsC19)]
     ("u-r-g16", declsAB) (by rw [unify_main_AB_C19_eq]; simp)⟩

/-- A container that declares a visible 3-column grid but has no children. -/
def gridNoChildren : Node :=
  Node.mk { layoutGrids := [{ pattern := "COLUMNS", count := 3 }] } []

/-- A container with one child and a visible 2-column grid (gutter 30). -/
def gridTwoColNode : Node :=
  Node.mk { layoutGrids := [{ pattern := "COLUMNS", count := 2,
                              gutterSize := 30 }] }
    [Node.mk { type := "FRAME" } []]

/-- C1 counterexample: a container (FRAME, `type`-wise any container) that
declares a visible COLUMNS grid with `count = 3` but has an empty children
list hits the `no-children` early return *before* the grid scan, so the
returned LayoutInfo has `columns = 1` and confidence 0 — not the declared
count with confidence 0.95 the claim promises for every container with such
a grid. -/
theorem childless_container_ignores_declared_grid :
    firstColumnsGrid gridNoChildren.data.layoutGrids =
      some { pattern := "COLUMNS", count := 3 } ∧
    analyze_layout_structure (fun _ => false) gridNoChildren =
      { type := "single", columns := 1, layout_mode := "NONE",
        reason := "no-children", confidence := 0 } ∧
    ¬ (analyze_layout_structure (fun _ => false) gridNoChildren).columns =
      3 := by
  refine ⟨by decide, by decide, by decide⟩

/-- C1 amended: *provided the container has at least one child* (the
empty-children case returns the single/columns-1 `no-children` result before
any grid is consulted), `analyze_layout_structure` obeys the three-tier
precedence: a declared visible COLUMNS grid with positive count wins with
exactly that column count at confidence 0.95 regardless of auto-layout or
child positions; otherwise the HORIZONTAL auto-layout result is returned
exactly when its own column count exceeds 1; in every other case the
position-derived result is returned (the row-grouping result when some
visible child exists, the single/columns-1 result otherwise). -/
theorem analyze_layout_structure_precedence (excl : Node → Bool) (e : Node)
    (hch : e.children.isEmpty = false) :
    (∀ g, firstColumnsGrid e.data.layoutGrids = some g →
      analyze_layout_structure excl e =
        { columns := g.count, layout_mode := e.data.layoutMode
          reason := "grid", confidence := 95/100
          type := columnsType g.count, gap := some g.gutterSize }) ∧
    (firstColumnsGrid e.data.layoutGrids = none →
      (child_positions excl e.children = [] →
        analyze_layout_structure excl e =
          { type := "single", columns := 1, layout_mode := e.data.layoutMode
            reason := "no-visible-children", confidence := 0 }) ∧
      (¬ child_positions excl e.children = [] →
        (e.data.layoutMode = "HORIZONTAL" ∧
            1 < (autoLayoutInfo e (child_positions excl e.children)).columns →
          analyze_layout_structure excl e =
            autoLayoutInfo e (child_positions excl e.children)) ∧
        (¬ (e.data.layoutMode = "HORIZONTAL" ∧
            1 < (autoLayoutInfo e (child_positions excl e.children)).columns) →
          analyze_layout_structure excl e =
            positionInfo e.data.layoutMode
              (child_positions excl e.children)))) := by
  constructor
  · intro g hg
    simp [analyze_layout_structure, hch, hg]
  · intro hg
    constructor
    · intro hcps
      simp [analyze_layout_structure, hch, hg, hcps]
    · intro hcps
      have hne : (child_positions excl e.children).isEmpty = false := by
        cases hcl : child_positions excl e.children with
        | nil => exact absurd hcl hcps
        | cons a t => rfl
      constructor
      · rintro ⟨hm, hcols⟩
        simp [analyze_layout_structure, hch, hg, hne, hm, hcols]
      · intro hnot
        by_cases hm : e.data.layoutMode = "HORIZONTAL"
        · have hcols :
              ¬ 1 < (autoLayoutInfo e (child_positions excl e.children)).columns :=
            fun hc => hnot ⟨hm, hc⟩
          simp [analyze_layout_structure, hch, hg, hne, hm, hcols]
        · simp [analyze_layout_structure, hch, hg, hne, hm]

/-- Witness for C1 (amended) at a concrete input: with one child present,
the declared 2-column grid (gutter 30) wins with confidence 0.95. -/
theorem analyze_layout_structure_precedence_witness :
    (gridTwoColNode.children.isEmpty = false) ∧
    analyze_layout_structure (fun _ => false) gridTwoColNode =
      { columns := 2, layout_mode := "NONE", reason := "grid"
        confidence := 95/100, type := columnsType 2, gap := some 30 } :=
  ⟨by decide,
   (analyze_layout_structure_precedence (fun _ => false) gridTwoColNode
      (by decide)).1
     { pattern := "COLUMNS", count := 2, gutterSize := 30 } (by decide)⟩

/-- A childless box node with the given absolute bounds. -/
def box (x y w h : ℚ) : Node :=
  Node.mk
    { absoluteBoundingBox := some { x := x, y := y, width := w, height := h } }
    []

/-- A container with two 500-wide sibling boxes at the same Y. -/
def parent5050 : Node :=
  Node.mk
    { absoluteBoundingBox :=
        some { x := 0, y := 0, width := 1000, height := 100 } }
    [box 0 0 500 100, box 500 0 500 100]

/-- A container with 400- and 600-wide sibling boxes at the same Y. -/
def parent4060 : Node :=
  Node.mk
    { absoluteBoundingBox :=
        some { x := 0, y := 0, width := 1000, height := 100 } }
    [box 0 0 400 100, box 400 0 600 100]

def cpA : ChildPos := { x := 0, y := 0, width := 500, height := 100 }
def cpB : ChildPos := { x := 500, y := 0, width := 500, height := 100 }
def cpC : ChildPos := { x := 0, y := 0, width := 400, height := 100 }
def cpD : ChildPos := { x := 400, y := 0, width := 600, height := 100 }

theorem c5_cps_5050 :
    child_positions (fun _ => false) parent5050.children = [cpA, cpB] := by
  simp [child_positions, parent5050, box, Node.bbox, cpA, cpB]

theorem c5_cps_4060 :
    child_positions (fun _ => false) parent4060.children = [cpC, cpD] := by
  simp [child_positions, parent4060, box, Node.bbox, cpC, cpD]

theorem c5_sort_5050 : sortByKey (fun p => p.y) [cpA, cpB] = [cpA, cpB] := by
  norm_num [sortByKey, insertByKey, cpA, cpB]

theorem c5_sort_4060 : sortByKey (fun p => p.y) [cpC, cpD] = [cpC, cpD] := by
  norm_num [sortByKey, insertByKey, cpC, cpD]

theorem c5_rows_5050 : groupRows (6/10) [cpA, cpB] = [[cpA, cpB]] := by
  norm_num [groupRows, y_overlap, sortByKey, insertByKey, cpA, cpB]

theorem c5_rows_4060 : groupRows (6/10) [cpC, cpD] = [[cpC, cpD]] := by
  norm_num [groupRows, y_overlap, sortByKey, insertByKey, cpC, cpD]

theorem c5_ratios_5050 : analyze_column_ratios [[cpA, cpB]] = ["1:1"] := by
  norm_num [analyze_column_ratios, List.filterMap_cons, sortByKey, insertByKey,
    classify_ratio_precise, abs_lt, cpA, cpB]

theorem c5_ratios_4060 : analyze_column_ratios [[cpC, cpD]] = ["2:3"] := by
  norm_num [analyze_column_ratios, List.filterMap_cons, sortByKey, insertByKey,
    classify_ratio_precise, abs_lt, cpC, cpD]

theorem c5_pos_5050 : positionInfo "NONE" [cpA, cpB] =
    { type := "two-column", columns := 2, layout_mode := "NONE"
      reason := "position", confidence := 6/10
      ratios := some ["1:1"] } := by
  simp [positionInfo, c5_sort_5050, c5_rows_5050, c5_ratios_5050, columnsType]

theorem c5_pos_4060 : positionInfo "NONE" [cpC, cpD] =
    { type := "two-column", columns := 2, layout_mode := "NONE"
      reason := "position", confidence := 6/10
      ratios := some ["2:3"] } := by
  simp [positionInfo, c5_sort_4060, c5_rows_4060, c5_ratios_4060, columnsType]

theorem c5_analyze_5050 : analyze_layout_structure (fun _ => false) parent5050 =
    { type := "two-column", columns := 2, layout_mode := "NONE"
      reason := "position", confidence := 6/10
      ratios := some ["1:1"] } := by
  have hch : parent5050.children.isEmpty = false := rfl
  have hgr : firstColumnsGrid parent5050.data.layoutGrids = none := rfl
  have hlm : parent5050.data.layoutMode = "NONE" := rfl
  have hmode : ("NONE" = "HORIZONTAL") = False := by simp
  simp [analyze_layout_structure, hch, hgr, hlm, hmode, c5_cps_5050,
    c5_pos_5050]

theorem c5_analyze_4060 : analyze_layout_structure (fun _ => false) parent4060 =
    { type := "two-column", columns := 2, layout_mode := "NONE"
      reason := "position", confidence := 6/10
      ratios := some ["2:3"] } := by
  have hch : parent4060.children.isEmpty = false := rfl
  have hgr : firstColumnsGrid parent4060.data.layoutGrids = none := rfl
  have hlm : parent4060.data.layoutMode = "NONE" := rfl
  have hmode : ("NONE" = "HORIZONTAL") = False := by simp
  simp [analyze_layout_structure, hch, hgr, hlm, hmode, c5_cps_4060,
    c5_pos_4060]

/-- C5: for a pair of width fractions, `classify_ratio_precise` returns the
named bucket — `"1:1"`, `"1:2"`, `"2:3"`, `"1:3"` or `"3:4"` — when they
fall within the tolerance band (±0.05 of each target fraction; ±0.03 for
3:4), the buckets checked in source order with earlier ones taking
precedence, and the literal two-decimal ratio string when no band matches;
in particular two sibling boxes of widths 500/500 at the same Y classify
end-to-end (through row grouping and `analyze_column_ratios`) as `"1:1"`,
and 400/600 as `"2:3"`. -/
theorem two_column_ratio_classification :
    (∀ l r : ℚ, |l - 1/2| < 5/100 → |r - 1/2| < 5/100 →
      classify_ratio_precise [l, r] = "1:1") ∧
    (∀ l r : ℚ,
      ¬ (|l - 1/2| < 5/100 ∧ |r - 1/2| < 5/100) →
      ((|l - 33/100| < 5/100 ∧ |r - 67/100| < 5/100) ∨
       (|l - 67/100| < 5/100 ∧ |r - 33/100| < 5/100)) →
      classify_ratio_precise [l, r] = "1:2") ∧
    (∀ l r : ℚ,
      ¬ (|l - 1/2| < 5/100 ∧ |r - 1/2| < 5/100) →
      ¬ ((|l - 33/100| < 5/100 ∧ |r - 67/100| < 5/100) ∨
         (|l - 67/100| < 5/100 ∧ |r - 33/100| < 5/100)) →
      ((|l - 40/100| < 5/100 ∧ |r - 60/100| < 5/100) ∨
       (|l - 60/100| < 5/100 ∧ |r - 40/100| < 5/100)) →
      classify_ratio_precise [l, r] = "2:3") ∧
    (∀ l r : ℚ,
      ¬ (|l - 1/2| < 5/100 ∧ |r - 1/2| < 5/100) →
      ¬ ((|l - 33/100| < 5/100 ∧ |r - 67/100| < 5/100) ∨
         (|l - 67/100| < 5/100 ∧ |r - 33/100| < 5/100)) →
      ¬ ((|l - 40/100| < 5/100 ∧ |r - 60/100| < 5/100) ∨
         (|l - 60/100| < 5/100 ∧ |r - 40/100| < 5/100)) →
      ((|l - 25/100| < 5/100 ∧ |r - 75/100| < 5/100) ∨
       (|l - 75/100| < 5/100 ∧ |r - 25/100| < 5/100)) →
      classify_ratio_precise [l, r] = "1:3") ∧
    (∀ l r : ℚ,
      ¬ (|l - 1/2| < 5/100 ∧ |r - 1/2| < 5/100) →
      ¬ ((|l - 33/100| < 5/100 ∧ |r - 67/100| < 5/100) ∨
         (|l - 67/100| < 5/100 ∧ |r - 33/100| < 5/100)) →
      ¬ ((|l - 40/100| < 5/100 ∧ |r - 60/100| < 5/100) ∨
         (|l - 60/100| < 5/100 ∧ |r - 40/100| < 5/100)) →
      ¬ ((|l - 25/100| < 5/100 ∧ |r - 75/100| < 5/100) ∨
         (|l - 75/100| < 5/100 ∧ |r - 25/100| < 5/100)) →
      ((|l - 43/100| < 3/100 ∧ |r - 57/100| < 3/100) ∨
       (|l - 57/100| < 3/100 ∧ |r - 43/100| < 3/100)) →
      classify_ratio_precise [l, r] = "3:4") ∧
    (∀ l r : ℚ,
      ¬ (|l - 1/2| < 5/100 ∧ |r - 1/2| < 5/100) →
      ¬ ((|l - 33/100| < 5/100 ∧ |r - 67/100| < 5/100) ∨
         (|l - 67/100| < 5/100 ∧ |r - 33/100| < 5/100)) →
      ¬ ((|l - 40/100| < 5/100 ∧ |r - 60/100| < 5/100) ∨
         (|l - 60/100| < 5/100 ∧ |r - 40/100| < 5/100)) →
      ¬ ((|l - 25/100| < 5/100 ∧ |r - 75/100| < 5/100) ∨
         (|l - 75/100| < 5/100 ∧ |r - 25/100| < 5/100)) →
      ¬ ((|l - 43/100| < 3/100 ∧ |r - 57/100| < 3/100) ∨
         (|l - 57/100| < 3/100 ∧ |r - 43/100| < 3/100)) →
      classify_ratio_precise [l, r] = fmt2 l ++ ":" ++ fmt2 r) ∧
    (analyze_layout_structure (fun _ => false) parent5050).ratios =
      some ["1:1"] ∧
    (analyze_layout_structure (fun _ => false) parent4060).ratios =
      some ["2:3"] := by
  refine ⟨?_, ?_, ?_, ?_, ?_, ?_, ?_, ?_⟩
  · intro l r h1 h2
    simp only [classify_ratio_precise]
    rw [if_pos ⟨h1, h2⟩]
  · intro l r h1 h2
    simp only [classify_ratio_precise]
    rw [if_neg h1, if_pos h2]
  · intro l r h1 h2 h3
    simp only [classify_ratio_precise]
    rw [if_neg h1, if_neg h2, if_pos h3]
  · intro l r h1 h2 h3 h4
    simp only [classify_ratio_precise]
    rw [if_neg h1, if_neg h2, if_neg h3, if_pos h4]
  · intro l r h1 h2 h3 h4 h5
    simp only [classify_ratio_precise]
    rw [if_neg h1, if_neg h2, if_neg h3, if_neg h4, if_pos h5]
  · intro l r h1 h2 h3 h4 h5
    simp only [classify_ratio_precise]
    rw [if_neg h1, if_neg h2, if_neg h3, if_neg h4, if_neg h5]
  · rw [c5_analyze_5050]
  · rw [c5_analyze_4060]

/-- Witness for C5 at concrete fractions, one per bucket: `0.5/0.5` is
inside the 1:1 band; `0.33/0.67` misses the 1:1 band and sits in the 1:2
band; `0.4/0.6` misses the 1:1 and 1:2 bands and sits in the 2:3 band;
`0.25/0.75` misses the earlier bands and sits in the 1:3 band; `0.45/0.55`
misses the 1:1 band (deviation exactly 0.05), the 1:2/2:3/1:3 bands, and
sits in the 3:4 band (deviation 0.02 < 0.03). -/
theorem two_column_ratio_classification_witness :
    classify_ratio_precise [1/2, 1/2] = "1:1" ∧
    classify_ratio_precise [33/100, 67/100] = "1:2" ∧
    classify_ratio_precise [2/5, 3/5] = "2:3" ∧
    classify_ratio_precise [1/4, 3/4] = "1:3" ∧
    classify_ratio_precise [9/20, 11/20] = "3:4" :=
  ⟨two_column_ratio_classification.1 (1/2) (1/2) (by norm_num) (by norm_num),
   two_column_ratio_classification.2.1 (33/100) (67/100)
     (by norm_num [abs_lt]) (by norm_num [abs_lt]),
   two_column_ratio_classification.2.2.1 (2/5) (3/5) (by norm_num [abs_lt])
     (by norm_num [abs_lt]) (by norm_num [abs_lt]),
   two_column_ratio_classification.2.2.2.1 (1/4) (3/4)
     (by norm_num [abs_lt]) (by norm_num [abs_lt]) (by norm_num [abs_lt])
     (by norm_num [abs_lt]),
   two_column_ratio_classification.2.2.2.2.1 (9/20) (11/20)
     (by norm_num [abs_lt]) (by norm_num [abs_lt]) (by norm_num [abs_lt])
     (by norm_num [abs_lt]) (by norm_num [abs_lt])⟩

/-- C2 counterexample: on the paint stack red SOLID (bottom), green SOLID,
gradient (top) — all visible, all alpha 1 — the first visible SOLID from
the top is the green fill, but `extract_fills_styles` emits the *bottom*
SOLID (red) as background color (the gradient branch scans the original
bottom-to-top order for its base), so the claim's "first visible SOLID
fill found from the top" is not the effective background color here. -/
theorem gradient_atop_solids_uses_bottom_solid :
    first_visible_solid_from_top gradTopNode.data.fills = some fillGreen ∧
    rgb255 fillGreen.color = (0, 255, 0) ∧
    extract_fills_styles gradTopNode =
      [CssPart.backgroundColor 255 0 0 1,
       CssPart.gradient "GRADIENT_LINEAR" [(255, 255, 255, 1, 0)]] ∧
    ¬ extract_fills_styles gradTopNode =
      [CssPart.backgroundColor 0 255 0 1,
       CssPart.gradient "GRADIENT_LINEAR" [(255, 255, 255, 1, 0)]] := by
  have hmain : extract_fills_styles gradTopNode =
      [CssPart.backgroundColor 255 0 0 1,
       CssPart.gradient "GRADIENT_LINEAR" [(255, 255, 255, 1, 0)]] := by
    have h1 : extract_fills_styles gradTopNode =
        fillsLoop [fillRed, fillGreen, fillGrad] 1
          [fillGrad, fillGreen, fillRed] := rfl
    rw [h1, fillsLoop]
    rw [if_neg (by decide : ¬ fillGrad.visible = some false)]
    rw [if_neg (by norm_num [compositeAlpha, fillGrad] :
      ¬ compositeAlpha 1 fillGrad ≤ 0)]
    rw [if_neg (by decide : ¬ fillGrad.type = "SOLID")]
    rw [if_pos (by decide : strStartsW fillGrad.type "GRADIENT_" = true)]
    rw [if_neg (by decide : ¬ fillGrad.gradientStops.isEmpty = true)]
    rw [show gradientBaseSolid [fillRed, fillGreen, fillGrad] = some fillRed
      from by decide]
    have hrA : pyRound ((255:ℚ)) = 255 := by norm_num [pyRound, Int.fract]
    have hrB : pyRound ((0:ℚ)) = 0 := by norm_num [pyRound, Int.fract]
    have hcg : compositeAlpha 1
        { type := "GRADIENT_LINEAR"
          gradientStops := [{ position := 0
                              color := { r := 1, g := 1, b := 1, a := 1 } }] } =
        1 := by norm_num [compositeAlpha]
    simp [-one_div, rgb255, fillRed, fillGrad, hrA, hrB, hcg]
  refine ⟨?_, ?_, hmain, ?_⟩
  · simp [first_visible_solid_from_top, gradTopNode, fillRed, fillGreen,
      fillGrad]
  · norm_num [rgb255, fillGreen, pyRound, Int.fract]
  · rw [hmain]
    simp

/-- C2 amended: `extract_fills_styles` iterates fills from top paint to
bottom paint; a fill hidden by `visible == False`, of composite alpha
`fillOpacity × nodeOpacity` (clamped to [0,1]) ≤ 0, or passed over by every
branch contributes nothing (second conjunct); and *provided every fill
above it is such a skipped fill* (in particular, no visible gradient with
stops lies above it), the first visible SOLID fill with positive composite
alpha becomes the sole `background-color`, with exactly that composite
alpha (first conjunct).  The 0.5-opacity fill on a 0.6-opacity node
resolves to alpha 0.30 exactly (last conjuncts). -/
theorem extract_fills_first_solid_amended :
    (∀ (e : Node) (pre : List Fill) (f : Fill) (post : List Fill),
      e.data.fills.reverse = pre ++ f :: post →
      (∀ g ∈ pre, skippedFill e.data.opacity g) →
      ¬ f.visible = some false →
      ¬ compositeAlpha e.data.opacity f ≤ 0 →
      f.type = "SOLID" →
      extract_fills_styles e =
        [CssPart.backgroundColor (pyRound (f.color.r * 255))
          (pyRound (f.color.g * 255)) (pyRound (f.color.b * 255))
          (compositeAlpha e.data.opacity f)]) ∧
    (∀ (fo : List Fill) (op : ℚ) (g : Fill) (rest : List Fill),
      skippedFill op g →
      fillsLoop fo op (g :: rest) = fillsLoop fo op rest) ∧
    extract_fills_styles alphaNode =
      [CssPart.backgroundColor 255 0 0 (3/10)] ∧
    |(3 : ℚ)/10 - 30/100| ≤ 1/100 := by
  refine ⟨?_, fillsLoop_skip, ?_, by norm_num⟩
  · intro e pre f post hrev hpre hv ha ht
    have hne : e.data.fills.isEmpty = false := by
      cases hf : e.data.fills with
      | nil => rw [hf] at hrev; simp at hrev
      | cons a t => rfl
    have hstep : extract_fills_styles e =
        if e.data.fills.isEmpty then []
        else fillsLoop e.data.fills e.data.opacity e.data.fills.reverse := rfl
    rw [hstep, if_neg (by simp [hne]), hrev]
    exact fillsLoop_first_solid e.data.fills e.data.opacity pre f post hpre
      hv ha ht
  · have h1 : extract_fills_styles alphaNode =
        fillsLoop alphaNode.data.fills (6/10)
          [{ type := "SOLID", opacity := 1/2
             color := { r := 1, g := 0, b := 0, a := 1 } }] := rfl
    rw [h1, fillsLoop]
    rw [if_neg (by simp :
      ¬ ({ type := "SOLID", opacity := 1/2
           color := { r := 1, g := 0, b := 0, a := 1 } } : Fill).visible =
        some false)]
    rw [if_neg (by norm_num [compositeAlpha] :
      ¬ compositeAlpha (6/10)
          { type := "SOLID", opacity := 1/2
            color := { r := 1, g := 0, b := 0, a := 1 } } ≤ 0)]
    rw [if_pos (rfl :
      ({ type := "SOLID", opacity := 1/2
         color := { r := 1, g := 0, b := 0, a := 1 } } : Fill).type =
        "SOLID")]
    have hr : pyRound ((255:ℚ)) = 255 := by norm_num [pyRound, Int.fract]
    have hg : pyRound ((0:ℚ)) = 0 := by norm_num [pyRound, Int.fract]
    have hca : compositeAlpha (6/10)
        { type := "SOLID", opacity := 1/2
          color := { r := 1, g := 0, b := 0, a := 1 } } = 3/10 := by
      norm_num [compositeAlpha]
    simp [-one_div, rgb255, hr, hg, hca]

/-- Witness for C2 (amended) at the compositing example node: the single
SOLID fill (empty skipped prefix) yields exactly one `background-color`
declaration with the composite alpha. -/
theorem extract_fills_first_solid_amended_witness :
    extract_fills_styles alphaNode =
      [CssPart.backgroundColor
        (pyRound (({ type := "SOLID", opacity := 1/2
                     color := { r := 1, g := 0, b := 0, a := 1 } } :
            Fill).color.r * 255))
        (pyRound (({ type := "SOLID", opacity := 1/2
                     color := { r := 1, g := 0, b := 0, a := 1 } } :
            Fill).color.g * 255))
        (pyRound (({ type := "SOLID", opacity := 1/2
                     color := { r := 1, g := 0, b := 0, a := 1 } } :
            Fill).color.b * 255))
        (compositeAlpha alphaNode.data.opacity
          { type := "SOLID", opacity := 1/2
            color := { r := 1, g := 0, b := 0, a := 1 } })] :=
  extract_fills_first_solid_amended.1 alphaNode []
    { type := "SOLID", opacity := 1/2
      color := { r := 1, g := 0, b := 0, a := 1 } }
    [] rfl (by simp) (by simp)
    (by norm_num [compositeAlpha, alphaNode]) rfl

/-- A root FRAME with two boxes separated by a 150px vertical gap. -/
def secRoot : Node := Node.mk { id := "r", type := "FRAME" }
  [box 0 0 100 50, box 0 200 100 50]

/-- A root FRAME whose name matches the section keyword list. -/
def heroRoot : Node :=
  Node.mk { id := "h", name := "Hero Section", type := "FRAME" }
    [box 0 0 100 50]

/-- Position fallback on `secRoot`: the 150px gap (200 − 50 > 100) closes
the first section. -/
theorem sections_by_position_secRoot :
    detect_sections_by_position (fun _ => false) secRoot 100 =
      [{ type := "position_detected", elements := [box 0 0 100 50]
         y_start := 0, y_end := 50 },
       { type := "position_detected", elements := [box 0 200 100 50]
         y_start := 200, y_end := 250 }] := by
  have hall : get_all_child_elements (fun _ => false) secRoot =
      [box 0 0 100 50, box 0 200 100 50] := by
    simp [get_all_child_elements, get_all_child_elements_list, secRoot, box]
  have hy1 : nodeY (box 0 0 100 50) = 0 := rfl
  have hy2 : nodeY (box 0 200 100 50) = 200 := rfl
  have hh1 : nodeHeight (box 0 0 100 50) = 50 := rfl
  have hh2 : nodeHeight (box 0 200 100 50) = 50 := rfl
  have hb1 : (box 0 0 100 50).bbox.y = 0 := rfl
  have hb2 : (box 0 200 100 50).bbox.y = 200 := rfl
  have hsort : sortByKey nodeY [box 0 0 100 50, box 0 200 100 50] =
      [box 0 0 100 50, box 0 200 100 50] := by
    norm_num [sortByKey, insertByKey, hy1, hy2]
  rw [detect_sections_by_position, hall]
  norm_num [hsort, posStep, posFinish, mkPositionSection, hy1, hy2, hh1, hh2,
    hb1, hb2]

/-- Frame-name strategy on `heroRoot`: one frame-detected section. -/
theorem sections_by_frames_heroRoot :
    detect_sections_by_frames (fun _ => false) heroRoot =
      [{ id := some "h", name := some "Hero Section"
         type := "frame_detected", absoluteBoundingBox := none
         children := [box 0 0 100 50] }] := by
  simp [detect_sections_by_frames, detect_sections_by_frames_list, heroRoot,
    box, is_section_name, strIn, listIsInf, listIsPfx, pyLower]

/-- Frame-name strategy on `secRoot`: no frame name matches. -/
theorem sections_by_frames_secRoot_empty :
    detect_sections_by_frames (fun _ => false) secRoot = [] := by
  simp [detect_sections_by_frames, detect_sections_by_frames_list, secRoot,
    box, is_section_name, strIn, listIsInf, listIsPfx, pyLower]

/-- C7: section detection tries the frame-name strategy first and falls
back to the position strategy exactly when the frame-name strategy returns
an empty list (first two conjuncts); the position fallback's sections are,
element-wise, exactly the consecutive-gap split of the Y-sorted
exclusion-filtered descendant list, closing a section exactly when the next
element's Y exceeds the previous element's bottom edge by more than the
threshold (third conjunct, `gapSplit` being the spec-side splitter); and
every position-detected section has no semantic name (fourth conjunct). -/
theorem section_detection_strategy_and_gap_rule (excl : Node → Bool)
    (node : Node) (t : ℚ) :
    (¬ detect_sections_by_frames excl node = [] →
      detect_sections excl node = detect_sections_by_frames excl node) ∧
    (detect_sections_by_frames excl node = [] →
      detect_sections excl node = detect_sections_by_position excl node) ∧
    (detect_sections_by_position excl node t).map (fun s => s.elements) =
      gapSplit t (sortByKey nodeY
        ((get_all_child_elements excl node).filter fun el => !excl el)) ∧
    (∀ s ∈ detect_sections_by_position excl node t,
      s.name = none ∧ s.type = "position_detected") := by
  have hdef : detect_sections excl node =
      if (detect_sections_by_frames excl node).isEmpty then
        detect_sections_by_position excl node
      else detect_sections_by_frames excl node := rfl
  refine ⟨?_, ?_, detect_by_position_elements excl node t, ?_⟩
  · intro h
    have hne : (detect_sections_by_frames excl node).isEmpty = false := by
      cases hb : detect_sections_by_frames excl node with
      | nil => exact absurd hb h
      | cons a l => rfl
    simp [hdef, hne]
  · intro h
    simp [hdef, h]
  · intro s hs
    have hrw : detect_sections_by_position excl node t =
        posFinish ((sortByKey nodeY
          ((get_all_child_elements excl node).filter fun el =>
            !excl el)).foldl (posStep t) {}) := rfl
    rw [hrw] at hs
    have h := posLoop_sections_inv t _ {}
      (fun s2 hs2 => absurd hs2 (List.not_mem_nil s2)) s hs
    exact ⟨h.2.1, h.2.2⟩

/-- Witness for C7 at concrete inputs: `heroRoot`'s frame-detected section
wins; `secRoot` (no matching frame name) falls back to the position
strategy, and its first section is nameless of type `position_detected`. -/
theorem section_detection_strategy_and_gap_rule_witness :
    (detect_sections (fun _ => false) heroRoot =
      detect_sections_by_frames (fun _ => false) heroRoot) ∧
    (detect_sections (fun _ => false) secRoot =
      detect_sections_by_position (fun _ => false) secRoot) ∧
    (({ type := "position_detected", elements := [box 0 0 100 50]
        y_start := 0, y_end := 50 } : Section).name = none ∧
     ({ type := "position_detected", elements := [box 0 0 100 50]
        y_start := 0, y_end := 50 } : Section).type =
       "position_detected") :=
  ⟨(section_detection_strategy_and_gap_rule (fun _ => false) heroRoot 100).1
     (by rw [sections_by_frames_heroRoot]; simp),
   (section_detection_strategy_and_gap_rule (fun _ => false) secRoot 100).2.1
     sections_by_frames_secRoot_empty,
   (section_detection_strategy_and_gap_rule (fun _ => false) secRoot
       100).2.2.2 _
     (by rw [sections_by_position_secRoot]; simp)⟩

/-- C10: the position fallback partitions the Y-sorted exclusion-filtered
descendant list exactly: concatenating the sections' element lists in order
gives back that sorted list (so nothing is dropped or duplicated — the
concatenation is a permutation of the filtered descendants and is sorted by
ascending absolute Y), and every produced section is non-empty. -/
theorem position_sections_partition_exact (excl : Node → Bool) (node : Node)
    (t : ℚ) :
    ((detect_sections_by_position excl node t).map
        (fun s => s.elements)).flatten =
      sortByKey nodeY
        ((get_all_child_elements excl node).filter fun el => !excl el) ∧
    List.Perm (((detect_sections_by_position excl node t).map
        (fun s => s.elements)).flatten)
      ((get_all_child_elements excl node).filter fun el => !excl el) ∧
    List.Sorted (fun a b => nodeY a ≤ nodeY b)
      (((detect_sections_by_position excl node t).map
        (fun s => s.elements)).flatten) ∧
    ∀ s ∈ detect_sections_by_position excl node t, s.elements ≠ [] := by
  have h1 : ((detect_sections_by_position excl node t).map
      (fun s => s.elements)).flatten =
      sortByKey nodeY
        ((get_all_child_elements excl node).filter fun el => !excl el) := by
    rw [detect_by_position_elements, gapSplit_join]
  refine ⟨h1, ?_, ?_, ?_⟩
  · rw [h1]
    have h := sortByKey_perm nodeY
      ((get_all_child_elements excl node).filter fun el => !excl el) []
    simpa [sortByKey] using h
  · rw [h1]
    exact sortByKey_sorted nodeY _
  · intro s hs
    have hrw : detect_sections_by_position excl node t =
        posFinish ((sortByKey nodeY
          ((get_all_child_elements excl node).filter fun el =>
            !excl el)).foldl (posStep t) {}) := rfl
    rw [hrw] at hs
    exact (posLoop_sections_inv t _ {}
      (fun s2 hs2 => absurd hs2 (List.not_mem_nil s2)) s hs).1

/-- Witness for C10 at `secRoot`: the two produced sections are non-empty
and their elements concatenate to the sorted filtered descendant list. -/
theorem position_sections_partition_exact_witness :
    (((detect_sections_by_position (fun _ => false) secRoot 100).map
        (fun s => s.elements)).flatten =
      sortByKey nodeY
        ((get_all_child_elements (fun _ => false) secRoot).filter fun el =>
          !(fun _ => false) el)) ∧
    ({ type := "position_detected", elements := [box 0 0 100 50]
       y_start := 0, y_end := 50 } : Section).elements ≠ [] :=
  ⟨(position_sections_partition_exact (fun _ => false) secRoot 100).1,
   (position_sections_partition_exact (fun _ => false) secRoot 100).2.2.2 _
     (by rw [sections_by_position_secRoot]; simp)⟩

/-- C8 counterexample: two `add_node_styles` calls for the same node with
two different `width` values leave *both* declarations in the accumulated
record — the collection bucket de-duplicates only identical strings, so the
record holds two declarations with the same property name (`width`) and the
earlier value first: not last-writer-wins. -/
theorem style_record_keeps_both_widths :
    add_node_styles {} none
        (add_node_styles {} none [] "n1" ["width:100px"]) "n1"
        ["width:200px"] =
      [("n1", ["width:100px", "width:200px"])] ∧
    prop_name "width:100px" = prop_name "width:200px" ∧
    ¬ ("width:100px" = "width:200px") :=
  ⟨by decide, by decide, by decide⟩

/-- C8 amended: the `merge_css_props` helper (invoked with two non-empty
lists, as at its call sites) *does* merge with last-writer-wins per
property name: its result has pairwise-distinct property names (first
conjunct) and each surviving declaration is the last one contributed for
its name (second conjunct).  The accumulated `collected_node_styles`
record, by contrast, only prevents exact duplicate strings: a second value
for the same property accumulates alongside the first (third conjunct),
while re-adding an identical declaration is a no-op (fourth conjunct). -/
theorem style_record_merge_semantics :
    (∀ ex ne : List String, ¬ ex = [] → ¬ ne = [] →
      (merge_css_props ex ne).Pairwise
        (fun p q => prop_name p ≠ prop_name q)) ∧
    (∀ (ex ne : List String) (p : String), ¬ ex = [] → ¬ ne = [] →
      p ∈ merge_css_props ex ne →
      lastPropWith (prop_name p) (ex ++ ne) = some p) ∧
    add_node_styles {} none
        (add_node_styles {} none [] "n1" ["width:100px"]) "n1"
        ["width:200px"] =
      [("n1", ["width:100px", "width:200px"])] ∧
    add_node_styles {} none [("n1", ["width:100px"])] "n1"
        ["width:100px"] =
      [("n1", ["width:100px"])] := by
  have hmerge : ∀ ex ne : List String, ¬ ex = [] → ¬ ne = [] →
      merge_css_props ex ne = (mergeFold (ex ++ ne) []).map fun p => p.2 := by
    intro ex ne hex hne
    have hex2 : ex.isEmpty = false := by
      cases ex with
      | nil => exact absurd rfl hex
      | cons a l => rfl
    have hne2 : ne.isEmpty = false := by
      cases ne with
      | nil => exact absurd rfl hne
      | cons a l => rfl
    have hdef : merge_css_props ex ne =
        if ex.isEmpty then ne
        else if ne.isEmpty then ex
        else (mergeFold ne (mergeFold ex [])).map fun p => p.2 := rfl
    rw [hdef, if_neg (by simp [hex2]), if_neg (by simp [hne2])]
    have happ : mergeFold (ex ++ ne) [] = mergeFold ne (mergeFold ex []) := by
      rw [mergeFold, mergeFold, mergeFold, List.foldl_append]
    rw [happ]
  have hinvNil : cssDictInv [] :=
    ⟨List.Pairwise.nil, fun p hp => absurd hp (List.not_mem_nil p)⟩
  refine ⟨?_, ?_, by decide, by decide⟩
  · intro ex ne hex hne
    rw [hmerge ex ne hex hne]
    have hinv := mergeFold_inv (ex ++ ne) [] hinvNil
    refine List.pairwise_map.mpr ?_
    refine hinv.1.imp_of_mem ?_
    intro a b ha hb hne2
    rw [hinv.2 a ha, hinv.2 b hb] at hne2
    exact hne2
  · intro ex ne p hex hne hp
    rw [hmerge ex ne hex hne] at hp
    obtain ⟨q, hq, hq2⟩ := List.mem_map.mp hp
    have hinv := mergeFold_inv (ex ++ ne) [] hinvNil
    have hk := hinv.2 q hq
    have hget : dictGet (mergeFold (ex ++ ne) []) q.1 = some q.2 :=
      dictGet_of_mem _ hinv.1 q hq
    have hlast := dictGet_mergeFold q.1 (ex ++ ne) []
    rw [hget] at hlast
    rw [← hq2, ← hk]
    rw [show lastPropWith q.1 (ex ++ ne) =
      lastPropFrom q.1 (dictGet ([] : List (String × String)) q.1)
        (ex ++ ne) from rfl]
    exact hlast.symm

/-- Witness for C8 (amended) at concrete inputs: merging
`["width:100px"]` with `["width:200px"]` yields distinct property names and
the surviving `width` declaration is the last contributed one. -/
theorem style_record_merge_semantics_witness :
    (merge_css_props ["width:100px"] ["width:200px"]).Pairwise
      (fun p q => prop_name p ≠ prop_name q) ∧
    lastPropWith (prop_name "width:200px")
      (["width:100px"] ++ ["width:200px"]) = some "width:200px" :=
  ⟨style_record_merge_semantics.1 ["width:100px"] ["width:200px"]
     (by simp) (by simp),
   style_record_merge_semantics.2.1 ["width:100px"] ["width:200px"]
     "width:200px" (by simp) (by simp) (by decide)⟩

/-- C9: if the target frame id is not found anywhere in the document tree
(`find_node_by_id` returns `None`), generation aborts with the fatal
user-visible `ValueError` (modelled as `Except.error`, raised before any
output is produced); if the id is present, generation proceeds with the
found node — which indeed carries the requested id — as root. -/
theorem missing_root_is_fatal_found_root_proceeds :
    (∀ doc tid, find_node_by_id doc tid = none →
      locate_target_frame doc tid =
        .error ("フレームID " ++ tid ++ " が見つかりませんでした")) ∧
    (∀ doc tid n, find_node_by_id doc tid = some n →
      locate_target_frame doc tid = .ok n ∧ n.data.id = tid) := by
  constructor
  · intro doc tid h
    simp [locate_target_frame, h]
  · intro doc tid n h
    exact ⟨by simp [locate_target_frame, h],
      find_node_by_id_id_eq doc tid n h⟩

/-- Witness for C9 at concrete inputs: id `9:9` is absent from `docW`
(fatal error), id `1:5` is present (generation proceeds with that node). -/
theorem missing_root_is_fatal_found_root_proceeds_witness :
    (locate_target_frame docW "9:9" =
      .error "フレームID 9:9 が見つかりませんでした") ∧
    (locate_target_frame docW "1:5" =
        .ok (Node.mk { id := "1:5", name := "Frame 1", type := "FRAME" } []) ∧
      (Node.mk ({ id := "1:5", name := "Frame 1", type := "FRAME" } :
        NodeData) []).data.id = "1:5") :=
  ⟨missing_root_is_fatal_found_root_proceeds.1 docW "9:9" rfl,
   missing_root_is_fatal_found_root_proceeds.2 docW "1:5" _ rfl⟩

/-- C4 (code bug): under the `single_h1` strategy (the default
configuration, `HeadingCfg := {}`), `detect_heading_level` never downgrades
a second h1 guess.  Blocks 1–3 `return` before the policy section, so an h1
guess yields `"h1"` without even setting `HAS_H1_EMITTED` (first two
conjuncts: the returned state is the unchanged initial state, so processing
`titleTextNode` and then `bigTextNode` in sequence emits two `<h1>`); the
third conjunct shows `"h1"` is returned even when `HAS_H1_EMITTED` is
already true and the walk is past the first section, exactly the situation
the policy's own comment says must yield `"h2"`. -/
theorem single_h1_policy_is_dead_code :
    detect_heading_level {} {} titleTextNode = ("h1", {}) ∧
    detect_heading_level {} {} bigTextNode = ("h1", ({} : HeadingState)) ∧
    detect_heading_level {}
        { has_h1_emitted := true, current_section_index := 3 } titleTextNode =
      ("h1", { has_h1_emitted := true, current_section_index := 3 }) := by
  refine ⟨?_, ?_, ?_⟩ <;> decide

/-- Whatever branch `analyze_layout_structure` takes, the `layout_mode`
field of its result is the node's own `layoutMode` — this is the value the
elision branch passes to the child as `parent_layout_mode`. -/
theorem analyze_layout_mode (excl : Node → Bool) (e : Node) :
    (analyze_layout_structure excl e).layout_mode = e.data.layoutMode := by
  rw [analyze_layout_structure]
  split
  · rfl
  · split
    · rfl
    · dsimp only
      split
      · rfl
      · split
        · split
          · rw [autoLayoutInfo]
            split <;> rfl
          · rw [positionInfo]
            split <;> rfl
        · rw [positionInfo]
          split <;> rfl

/-- A TEXT child for the shallow-wrapper scenario. -/
def c6Child : Node :=
  Node.mk { id := "t", type := "TEXT", characters := "hi" } []

/-- A FRAME wrapper with exactly one visible child and no visual signal of
its own: no fill, stroke, effect, radius, clipping or padding, and
`layoutMode = "NONE"`. -/
def c6Frame : Node := Node.mk { id := "w", type := "FRAME" } [c6Child]

/-- C6 counterexample: under the default configuration the flag
`FLATTEN_SHALLOW_WRAPPERS` is `false`, so `is_shallow_wrapper_candidate`
short-circuits to `false` for the qualifying wrapper `c6Frame` (one visible
TEXT child, zero padding, no fill/stroke/effect/radius/clip, layoutMode
NONE) and the generated markup DOES contain a wrapper element for it: the
frame is emitted as a container around its child's paragraph, not elided as
the claim demands for "every FRAME" of this shape. -/
theorem shallow_wrapper_kept_under_default_config :
    FLATTEN_SHALLOW_WRAPPERS = false ∧
    is_shallow_wrapper_candidate FLATTEN_SHALLOW_WRAPPERS (fun _ => false)
      c6Frame = false ∧
    generate_element_html FLATTEN_SHALLOW_WRAPPERS (fun _ => false) {} {}
      c6Frame {} = .containerEl c6Frame [.textEl "p" "hi"] := by
  refine ⟨rfl, rfl, ?_⟩
  show generate_element_html false (fun _ => false) {} {} c6Frame {} = _
  rw [generate_element_html]
  simp [is_shallow_wrapper_candidate, c6Frame, c6Child, detect_heading_level,
    strIn, listIsInf, listIsPfx, pyLower]
  rw [generate_element_html]
  simp [detect_heading_level, c6Child, strIn, listIsInf, listIsPfx, pyLower]
  norm_num
  simp

/-- C6 amended: when shallow-wrapper flattening is enabled
(`flatten = true`), every non-excluded FRAME with exactly one visible
child, zero padding on all four sides, no visible fill, no strokes, no
effects, zero corner radius, no per-corner radii, no clipping and
`layoutMode = "NONE"` is a shallow-wrapper candidate and is elided: its
markup is exactly the markup of its single visible child, generated in a
context carrying the wrapper's layout mode (`"NONE"`) as
`parent_layout_mode` and the wrapper's (zero) horizontal padding as
`parent_padding` — no wrapper element of its own appears.  Under the
default configuration (`FLATTEN_SHALLOW_WRAPPERS = false`) no elision
occurs at all. -/
theorem shallow_wrapper_elision_amended (excl : Node → Bool)
    (hcfg : HeadingCfg) (hst : HeadingState) (ctx : GenCtx) (e vc : Node)
    (hexcl : excl e = false)
    (hframe : e.data.type = "FRAME")
    (hvc : visible_children excl e = [vc])
    (hpl : e.data.paddingLeft = 0) (hpr : e.data.paddingRight = 0)
    (hpt : e.data.paddingTop = 0) (hpb : e.data.paddingBottom = 0)
    (hfill : has_visible_fill e = false)
    (hstrokes : e.data.strokes = [])
    (heffects : e.data.effects = [])
    (hcr : e.data.cornerRadius = 0)
    (hrr : e.data.rectangleCornerRadii = [])
    (hclip : e.data.clipsContent = false)
    (hlm : e.data.layoutMode = "NONE") :
    is_shallow_wrapper_candidate true excl e = true ∧
    generate_element_html true excl hcfg hst e ctx =
      generate_element_html true excl hcfg hst vc
        { parent_layout_mode := some "NONE"
          parent_padding := some (0, 0)
          child_index := ctx.child_index } := by
  have hcand : is_shallow_wrapper_candidate true excl e = true := by
    simp [is_shallow_wrapper_candidate, hframe, hvc, hfill, hstrokes,
      heffects, hcr, hrr, hclip, has_padding, has_layout_role, hpl, hpr,
      hpt, hpb, hlm]
  refine ⟨hcand, ?_⟩
  rw [generate_element_html]
  simp [hexcl, hframe, hcand, hvc, analyze_layout_mode, hlm, hpl, hpr]
  split
  · simp_all
  · simp_all

/-- Witness for the amended C6 theorem: the concrete wrapper `c6Frame`
around the TEXT child `c6Child`, with flattening enabled, is a candidate
and its markup equals the child's markup in the propagated context. -/
theorem shallow_wrapper_elision_amended_witness :
    is_shallow_wrapper_candidate true (fun _ => false) c6Frame = true ∧
    generate_element_html true (fun _ => false) {} {} c6Frame {} =
      generate_element_html true (fun _ => false) {} {} c6Child
        { parent_layout_mode := some "NONE"
          parent_padding := some (0, 0)
          child_index := none } :=
  shallow_wrapper_elision_amended (fun _ => false) {} {} {} c6Frame c6Child
    rfl rfl rfl rfl rfl rfl rfl rfl rfl rfl rfl rfl rfl rfl

end Figma
